import Mathlib

deriving instance DecidableEq for Except

/-!
Shallow embedding of the hotel-reservation subsystem
(`src/6.2/src/reservation_system/{models,storage,services}.py`) and proofs
about it.  Python machine behaviour is made explicit: exceptions become an
error type threaded through `Except`, `datetime.date` becomes a lexicographic
triple of naturals, JSON documents become an inductive value type, and each
service call becomes a pure function from a storage state to a result paired
with the successor storage state.
-/

namespace ResSys

/-! ## Calendar dates

`datetime.date` values compare lexicographically on `(year, month, day)`;
the constructor enforces `1 ≤ year ≤ 9999`, `1 ≤ month ≤ 12` and
`1 ≤ day ≤ days-in-month`.  We embed a date as a lexicographic triple so the
Python comparisons `<`, `>=`, `max`, `min` are the linear-order operations. -/

/-- Underlying ordered representation of a calendar date: a lexicographic
`(year, (month, day))` triple of naturals. -/
abbrev DateRep : Type := Lex (Nat × Lex (Nat × Nat))

/-- A calendar date, as compared by Python's `datetime.date`. -/
structure Date where
  year : Nat
  month : Nat
  day : Nat
deriving DecidableEq, Repr

/-- The ordered triple carried by a `Date`. -/
def Date.rep (d : Date) : DateRep := toLex (d.year, toLex (d.month, d.day))

theorem Date.rep_injective : Function.Injective Date.rep := by
  intro a b h
  cases a; cases b
  simp only [Date.rep, toLex_inj, Prod.mk.injEq] at h
  simp_all

instance : LinearOrder Date := LinearOrder.lift' Date.rep Date.rep_injective

theorem Date.le_def (a b : Date) : (a ≤ b) = (a.rep ≤ b.rep) := rfl

theorem Date.lt_def (a b : Date) : (a < b) = (a.rep < b.rep) := rfl

/-! ## Python exceptions

All failures the embedded code can raise.  The source raises `ValueError`
with a message for every domain failure (the spec's `ValidationError`,
`NotFoundError` and `CapacityExceededError` all appear in the code as
`ValueError` with distinct messages); deserialisation can additionally
escape with `KeyError` (a missing dictionary key) or `FileNotFoundError`
(reading an absent file), neither of which is caught by the loaders. -/

inductive PyError where
  | valueError (msg : String)
  | typeError
  | keyError (key : String)
  | fileNotFoundError
deriving DecidableEq, Repr

/-! ## Domain model (`models.py`) -/

/-- `Hotel` dataclass.  The dataclass itself has no `__post_init__`, so direct
construction (as done by `JsonStorage.load_hotels` and
`HotelService.update`) performs no validation; `total_rooms` is a Python
`int` and may be any integer when constructed directly. -/
structure Hotel where
  id : String
  name : String
  total_rooms : Int
deriving DecidableEq, Repr

/-- Python truthiness test `not s` for a string: true iff the string is empty. -/
def pyStrFalsy (s : String) : Bool := s.isEmpty

/-- Python's `\s` character class (ASCII range, as used on the inputs the
program handles). -/
def pyIsSpace (c : Char) : Bool :=
  c = ' ' || c = '\t' || c = '\n' || c = '\r' || c = '\x0b' || c = '\x0c'

/-- Python `s.strip()`: drop whitespace from both ends. -/
def pyStrip (s : String) : String :=
  String.mk (((s.toList.dropWhile pyIsSpace).reverse.dropWhile pyIsSpace).reverse)

/-- `Hotel.create(name, total_rooms)`: validates and constructs.  The fresh
`uuid4().hex` identifier is passed in as `newId`. -/
def Hotel.create (newId name : String) (total_rooms : Int) :
    Except PyError Hotel :=
  if pyStrFalsy name || pyStrFalsy (pyStrip name) then
    .error (.valueError "Hotel.name no puede estar vacio")
  else if total_rooms ≤ 0 then
    .error (.valueError "Hotel.total_rooms debe ser > 0")
  else
    .ok { id := newId, name := pyStrip name, total_rooms := total_rooms }

/-- A character admitted by the regex class `[^@\s]`. -/
def emailChar (c : Char) : Bool := !(c = '@' || pyIsSpace c)

/-- `EMAIL_RE.match(s)` for `EMAIL_RE = ^[^@\s]+@[^@\s]+\.[^@\s]+$`:
the string splits at a unique `@` into a nonempty local part and a rest,
both free of `@` and whitespace, and the rest contains a dot that is
neither its first nor its last character. -/
def EMAIL_RE_match (s : String) : Bool :=
  match s.toList.splitOn '@' with
  | [l, r] =>
      !l.isEmpty && l.all emailChar && r.all emailChar &&
        ((r.drop 1).dropLast.contains '.')
  | _ => false

/-- `Customer` dataclass (no `__post_init__`: direct construction performs no
validation). -/
structure Customer where
  id : String
  name : String
  email : String
deriving DecidableEq, Repr

/-- `Customer.create(name, email)`.  Note the source matches the regex against
`email or ""` and then stores `email.strip()`. -/
def Customer.create (newId name email : String) : Except PyError Customer :=
  if pyStrFalsy name || pyStrFalsy (pyStrip name) then
    .error (.valueError "Customer.name no puede estar vacio")
  else if !EMAIL_RE_match email then
    .error (.valueError "Customer.email invalido")
  else
    .ok { id := newId, name := pyStrip name, email := pyStrip email }

/-- `Reservation` dataclass fields. -/
structure Reservation where
  id : String
  customer_id : String
  hotel_id : String
  check_in : Date
  check_out : Date
deriving DecidableEq, Repr

/-- `Reservation.__post_init__`: runs on every construction of the dataclass
(including deserialisation).  Checks, in order: `check_in >= check_out`,
then falsy `customer_id`, then falsy `hotel_id`.  Note the falsy test
rejects only the empty string, not whitespace-only strings. -/
def Reservation.postInit (r : Reservation) : Except PyError Reservation :=
  if r.check_out ≤ r.check_in then
    .error (.valueError "Reservation.check_in debe ser < check_out")
  else if pyStrFalsy r.customer_id then
    .error (.valueError "Reservation.customer_id requerido")
  else if pyStrFalsy r.hotel_id then
    .error (.valueError "Reservation.hotel_id requerido")
  else
    .ok r

/-- `Reservation.create(customer_id, hotel_id, check_in, check_out)` with the
fresh identifier passed in as `newId`. -/
def Reservation.create (newId customer_id hotel_id : String)
    (check_in check_out : Date) : Except PyError Reservation :=
  Reservation.postInit
    { id := newId, customer_id := customer_id, hotel_id := hotel_id,
      check_in := check_in, check_out := check_out }

/-- `Reservation.overlaps`: half-open interval intersection test,
`max(check_in) < min(check_out)`. -/
def Reservation.overlaps (r other : Reservation) : Bool :=
  max r.check_in other.check_in < min r.check_out other.check_out

/-! ## JSON values

A decoded `json.loads` result.  Numbers are modelled as integers: every
number this subsystem writes is a Python `int`, and no claim exercises
fractional literals.  Dictionaries are association lists; `json.loads`
collapses duplicate keys, so the key lists of objects the program reads are
duplicate-free, and lookup is first-match. -/

inductive JValue where
  | jnull
  | jbool (b : Bool)
  | jnum (n : Int)
  | jstr (s : String)
  | jarr (elems : List JValue)
  | jobj (fields : List (String × JValue))

mutual

/-- Python `repr` of a decoded JSON value (string escapes inside containers
are not modelled; no claim exercises them). -/
def pyReprV : JValue → String
  | .jnull => "None"
  | .jbool b => if b then "True" else "False"
  | .jnum n => toString n
  | .jstr s => "'" ++ s ++ "'"
  | .jarr xs => "[" ++ pyReprL xs ++ "]"
  | .jobj fs => "\x7b" ++ pyReprF fs ++ "\x7d"

/-- `repr` of a list body, comma-separated. -/
def pyReprL : List JValue → String
  | [] => ""
  | [x] => pyReprV x
  | x :: y :: xs => pyReprV x ++ ", " ++ pyReprL (y :: xs)

/-- `repr` of a dict body, comma-separated `'key': value` pairs. -/
def pyReprF : List (String × JValue) → String
  | [] => ""
  | [(k, v)] => "'" ++ k ++ "': " ++ pyReprV v
  | (k, v) :: p :: xs => "'" ++ k ++ "': " ++ pyReprV v ++ ", " ++ pyReprF (p :: xs)

end

/-- Python `str()` of a decoded JSON value: identity on strings, `repr`
otherwise (`None` → `"None"`, `True` → `"True"`, numbers decimal). -/
def pyStr : JValue → String
  | .jstr s => s
  | v => pyReprV v

/-- Parse the digit run of `int(s)`: all characters decimal digits,
nonempty.  (Underscore digit separators accepted by Python are not
modelled; no claim exercises them.) -/
def parseDigits (cs : List Char) : Option Nat :=
  if cs.isEmpty || !cs.all Char.isDigit then none
  else some (cs.foldl (fun a c => a * 10 + (c.toNat - 48)) 0)

/-- Python `int(s)` on a string: surrounding whitespace stripped, optional
sign, decimal digits; `ValueError` otherwise. -/
def pyParseInt (s : String) : Except PyError Int :=
  let cs := (s.toList.dropWhile pyIsSpace).reverse.dropWhile pyIsSpace |>.reverse
  match cs with
  | '+' :: rest =>
      match parseDigits rest with
      | some n => .ok (n : Int)
      | none => .error (.valueError "invalid literal for int()")
  | '-' :: rest =>
      match parseDigits rest with
      | some n => .ok (-(n : Int))
      | none => .error (.valueError "invalid literal for int()")
  | _ =>
      match parseDigits cs with
      | some n => .ok (n : Int)
      | none => .error (.valueError "invalid literal for int()")

/-- Python `int(x)` on a decoded JSON value: numbers pass through, booleans
become 0/1, strings are parsed, `None` and containers raise `TypeError`. -/
def pyInt : JValue → Except PyError Int
  | .jnum n => .ok n
  | .jbool b => .ok (if b then 1 else 0)
  | .jstr s => pyParseInt s
  | .jnull => .error .typeError
  | .jarr _ => .error .typeError
  | .jobj _ => .error .typeError

/-- `obj.get(k)` on a decoded dict: the value, or `None` when absent. -/
def jsonGet (fields : List (String × JValue)) (k : String) : JValue :=
  (fields.lookup k).getD .jnull

/-! ## Date text (`date_from_iso`, `date_to_iso`) -/

/-- Gregorian leap-year test, as `datetime.date` uses. -/
def isLeap (y : Nat) : Bool := y % 4 == 0 && (y % 100 != 0 || y % 400 == 0)

/-- Days in a month, as `datetime.date` validates. -/
def daysInMonth (y m : Nat) : Nat :=
  if m = 2 then (if isLeap y then 29 else 28)
  else if m = 4 || m = 6 || m = 9 || m = 11 then 30
  else 31

/-- The `datetime.date(y, m, d)` constructor: `ValueError` unless
`1 ≤ y ≤ 9999`, `1 ≤ m ≤ 12` and `1 ≤ d ≤ days-in-month`. -/
def pyDate (y m d : Int) : Except PyError Date :=
  if 1 ≤ y ∧ y ≤ 9999 ∧ 1 ≤ m ∧ m ≤ 12 ∧ 1 ≤ d ∧
      d ≤ (daysInMonth y.toNat m.toNat : Int) then
    .ok { year := y.toNat, month := m.toNat, day := d.toNat }
  else
    .error (.valueError "date out of range")

/-- `date_from_iso(value)`: split `value or ""` on `"-"`, convert each part
with `int` (raising `ValueError` on the first bad part, before the length
check), require exactly three parts, and build the date. -/
def date_from_iso (value : String) : Except PyError Date := do
  let parts := (value.toList.splitOn '-').map (fun cs => String.mk cs)
  let nums ← parts.mapM pyParseInt
  match nums with
  | [y, m, d] => pyDate y m d
  | _ => .error (.valueError "Fecha invalida, formato esperado YYYY-MM-DD")

/-- Left-pad a decimal rendering with zeros to the given width, as
`date.isoformat` does. -/
def padNum (width n : Nat) : String :=
  let s := toString n
  String.mk (List.replicate (width - s.length) '0') ++ s

/-- `date_to_iso(d) = d.isoformat()`: `YYYY-MM-DD`. -/
def date_to_iso (d : Date) : String :=
  padNum 4 d.year ++ "-" ++ padNum 2 d.month ++ "-" ++ padNum 2 d.day

/-! ## Storage (`storage.py`)

`JsonStorage` keeps three JSON array files.  A file's observable state for
a load is one of: absent (`read_text` raises `FileNotFoundError`, which the
`except (json.JSONDecodeError, ValueError)` clause does **not** catch),
whitespace-only text, text that is not valid JSON (`JSONDecodeError`,
caught), or a decoded document. -/

inductive JFile where
  | absent
  | blank
  | malformed
  | parsed (v : JValue)

namespace JsonStorage

/-- `JsonStorage._safe_load`: empty text, undecodable text and non-list
documents give `[]`; an absent file raises `FileNotFoundError` through the
uncaught `OSError` path. -/
def safe_load : JFile → Except PyError (List JValue)
  | .absent => .error .fileNotFoundError
  | .blank => .ok []
  | .malformed => .ok []
  | .parsed (.jarr xs) => .ok xs
  | .parsed _ => .ok []

/-- The per-element loop body shared by the three loaders: `.ok (some e)`
appends the entity, `.ok none` means the element's exception was caught by
`except (json.JSONDecodeError, ValueError, TypeError)` and the element is
skipped, `.error` is an exception that clause does not catch. -/
def loadItems {α : Type} (f : JValue → Except PyError (Option α)) :
    List JValue → Except PyError (List α)
  | [] => .ok []
  | v :: vs => do
      let e? ← f v
      let rest ← loadItems f vs
      match e? with
      | some e => .ok (e :: rest)
      | none => .ok rest

/-- One iteration of the `load_hotels` loop:
`Hotel(id=str(obj["id"]), name=str(obj.get("name")), total_rooms=int(obj.get("total_rooms")))`.
Subscripting a non-dict raises `TypeError` (caught); a dict missing `"id"`
raises `KeyError` (**not** caught); `int` of a missing or malformed
`total_rooms` raises `TypeError`/`ValueError` (caught).  The `Hotel`
dataclass runs no validation. -/
def loadHotelItem (obj : JValue) : Except PyError (Option Hotel) :=
  match obj with
  | .jobj fields =>
      match fields.lookup "id" with
      | none => .error (.keyError "id")
      | some vid =>
          match pyInt (jsonGet fields "total_rooms") with
          | .error _ => .ok none
          | .ok n =>
              .ok (some { id := pyStr vid, name := pyStr (jsonGet fields "name"),
                          total_rooms := n })
  | _ => .ok none

/-- `JsonStorage.load_hotels` over the observable file state. -/
def load_hotels (file : JFile) : Except PyError (List Hotel) := do
  let objs ← safe_load file
  loadItems loadHotelItem objs

/-- One iteration of the `load_customers` loop: all three fields use
`obj[...]`, so any missing key raises `KeyError` (not caught); a non-dict
element raises `TypeError` (caught). -/
def loadCustomerItem (obj : JValue) : Except PyError (Option Customer) :=
  match obj with
  | .jobj fields =>
      match fields.lookup "id" with
      | none => .error (.keyError "id")
      | some vid =>
          match fields.lookup "name" with
          | none => .error (.keyError "name")
          | some vname =>
              match fields.lookup "email" with
              | none => .error (.keyError "email")
              | some vemail =>
                  .ok (some { id := pyStr vid, name := pyStr vname,
                              email := pyStr vemail })
  | _ => .ok none

/-- `JsonStorage.load_customers`. -/
def load_customers (file : JFile) : Except PyError (List Customer) := do
  let objs ← safe_load file
  loadItems loadCustomerItem objs

/-- One iteration of the `load_reservations` loop, following Python's
argument evaluation order: `id`, `customer_id`, `hotel_id`, then
`check_in` (lookup, `str`, `date_from_iso`), then `check_out`, then the
dataclass `__post_init__` validation.  Missing keys raise `KeyError` (not
caught); bad date text and `__post_init__` failures raise `ValueError`
(caught, element skipped). -/
def loadResItem (obj : JValue) : Except PyError (Option Reservation) :=
  match obj with
  | .jobj fields =>
      match fields.lookup "id" with
      | none => .error (.keyError "id")
      | some vid =>
      match fields.lookup "customer_id" with
      | none => .error (.keyError "customer_id")
      | some vcid =>
      match fields.lookup "hotel_id" with
      | none => .error (.keyError "hotel_id")
      | some vhid =>
      match fields.lookup "check_in" with
      | none => .error (.keyError "check_in")
      | some vci =>
      match date_from_iso (pyStr vci) with
      | .error _ => .ok none
      | .ok ci =>
      match fields.lookup "check_out" with
      | none => .error (.keyError "check_out")
      | some vco =>
      match date_from_iso (pyStr vco) with
      | .error _ => .ok none
      | .ok co =>
      match Reservation.postInit
          { id := pyStr vid, customer_id := pyStr vcid, hotel_id := pyStr vhid,
            check_in := ci, check_out := co } with
      | .error _ => .ok none
      | .ok r => .ok (some r)
  | _ => .ok none

/-- `JsonStorage.load_reservations`. -/
def load_reservations (file : JFile) : Except PyError (List Reservation) := do
  let objs ← safe_load file
  loadItems loadResItem objs

/-- `dataclasses.asdict` of a `Hotel`, as `save_hotels` serialises it. -/
def hotelAsdict (h : Hotel) : JValue :=
  .jobj [("id", .jstr h.id), ("name", .jstr h.name),
         ("total_rooms", .jnum h.total_rooms)]

/-- `JsonStorage.save_hotels`: the file after the atomic replace. -/
def save_hotels (hs : List Hotel) : JFile :=
  .parsed (.jarr (hs.map hotelAsdict))

/-- `asdict` of a `Customer`. -/
def customerAsdict (c : Customer) : JValue :=
  .jobj [("id", .jstr c.id), ("name", .jstr c.name), ("email", .jstr c.email)]

/-- `JsonStorage.save_customers`. -/
def save_customers (cs : List Customer) : JFile :=
  .parsed (.jarr (cs.map customerAsdict))

/-- The `to_dict` serialisation of a `Reservation` used by
`save_reservations`: dates rendered with `date_to_iso`. -/
def resToDict (r : Reservation) : JValue :=
  .jobj [("id", .jstr r.id), ("customer_id", .jstr r.customer_id),
         ("hotel_id", .jstr r.hotel_id),
         ("check_in", .jstr (date_to_iso r.check_in)),
         ("check_out", .jstr (date_to_iso r.check_out))]

/-- `JsonStorage.save_reservations`. -/
def save_reservations (rs : List Reservation) : JFile :=
  .parsed (.jarr (rs.map resToDict))

end JsonStorage

/-! ## Service layer (`services.py`)

Each service holds a `JsonStorage` and follows read-full-collection →
compute → write-full-collection.  We embed the storage root's three
collections as a `Store`; a service's `storage.load_X()` reads the
corresponding field and `storage.save_X(xs)` replaces it (the JSON
round-trip through the files is the serialisation proved faithful by the
round-trip lemmas below).  A Python exception is an `Except.error` result;
since the raise happens before any save on every error path, the returned
store is the input store there. -/

structure Store where
  hotels : List Hotel
  customers : List Customer
  reservations : List Reservation
deriving DecidableEq, Repr

/-- The three freshly created `[]` files of a new storage root. -/
def Store.empty : Store := ⟨[], [], []⟩

namespace HotelService

/-- `HotelService.create`: load hotels, validate via `Hotel.create`
(surfacing its `ValueError` before any save), append, save. -/
def create (s : Store) (newId name : String) (total_rooms : Int) :
    Except PyError Hotel × Store :=
  match Hotel.create newId name total_rooms with
  | .error e => (.error e, s)
  | .ok h => (.ok h, { s with hotels := s.hotels ++ [h] })

/-- `HotelService.get`: first loaded hotel with the id, else `None`. -/
def get (s : Store) (hotel_id : String) : Option Hotel :=
  s.hotels.find? (fun h => h.id == hotel_id)

/-- `HotelService.delete`: drop every hotel with the id; if nothing was
dropped return `False` without writing, otherwise also drop every
reservation referencing the id and save both collections. -/
def deleteH (s : Store) (hotel_id : String) : Bool × Store :=
  let new_hotels := s.hotels.filter (fun h => !(h.id == hotel_id))
  if new_hotels.length = s.hotels.length then (false, s)
  else
    (true, { s with
      hotels := new_hotels,
      reservations := s.reservations.filter (fun r => !(r.hotel_id == hotel_id)) })

/-- The replacement record `HotelService.update` builds for a matching
hotel: a provided, non-blank name is stripped and used, else the old name;
a provided `total_rooms > 0` is used, else the old count. -/
def updateHotel (name : Option String) (total_rooms : Option Int)
    (h : Hotel) : Hotel :=
  let new_name := match name with
    | some n => if (pyStrip n).isEmpty then h.name else pyStrip n
    | none => h.name
  let new_total := match total_rooms with
    | some t => if 0 < t then t else h.total_rooms
    | none => h.total_rooms
  { id := h.id, name := new_name, total_rooms := new_total }

/-- One iteration of the `HotelService.update` loop: append the (possibly
replaced) record and remember the latest replacement. -/
def updateStep (hotel_id : String) (name : Option String)
    (total_rooms : Option Int) (acc : Option Hotel × List Hotel) (h : Hotel) :
    Option Hotel × List Hotel :=
  if h.id == hotel_id then
    (some (updateHotel name total_rooms h), acc.2 ++ [updateHotel name total_rooms h])
  else (acc.1, acc.2 ++ [h])

/-- The loop of `HotelService.update`: rebuild the list, replacing each
matching record and remembering the last replacement. -/
def updateLoop (hotel_id : String) (name : Option String)
    (total_rooms : Option Int) (hotels : List Hotel) :
    Option Hotel × List Hotel :=
  hotels.foldl (updateStep hotel_id name total_rooms) (none, [])

/-- `HotelService.update`: if no hotel matched, return `None` without
writing; otherwise save the rebuilt list and return the replacement. -/
def update (s : Store) (hotel_id : String) (name : Option String)
    (total_rooms : Option Int) : Option Hotel × Store :=
  match updateLoop hotel_id name total_rooms s.hotels with
  | (none, _) => (none, s)
  | (some u, new_hotels) => (some u, { s with hotels := new_hotels })

end HotelService

namespace CustomerService

/-- `CustomerService.create`: load, validate via `Customer.create`, append,
save. -/
def create (s : Store) (newId name email : String) :
    Except PyError Customer × Store :=
  match Customer.create newId name email with
  | .error e => (.error e, s)
  | .ok c => (.ok c, { s with customers := s.customers ++ [c] })

/-- `CustomerService.get`. -/
def get (s : Store) (customer_id : String) : Option Customer :=
  s.customers.find? (fun c => c.id == customer_id)

/-- `CustomerService.delete`: cascade into reservations by `customer_id`. -/
def deleteC (s : Store) (customer_id : String) : Bool × Store :=
  let new_customers := s.customers.filter (fun c => !(c.id == customer_id))
  if new_customers.length = s.customers.length then (false, s)
  else
    (true, { s with
      customers := new_customers,
      reservations :=
        s.reservations.filter (fun r => !(r.customer_id == customer_id)) })

/-- The replacement record `CustomerService.update` builds: same silent
fallback policy as hotels, on `name` and `email`. -/
def updateCustomer (name : Option String) (email : Option String)
    (c : Customer) : Customer :=
  let new_name := match name with
    | some n => if (pyStrip n).isEmpty then c.name else pyStrip n
    | none => c.name
  let new_email := match email with
    | some e => if (pyStrip e).isEmpty then c.email else pyStrip e
    | none => c.email
  { id := c.id, name := new_name, email := new_email }

/-- One iteration of the `CustomerService.update` loop. -/
def updateStep (customer_id : String) (name email : Option String)
    (acc : Option Customer × List Customer) (c : Customer) :
    Option Customer × List Customer :=
  if c.id == customer_id then
    (some (updateCustomer name email c), acc.2 ++ [updateCustomer name email c])
  else (acc.1, acc.2 ++ [c])

/-- The rebuild loop of `CustomerService.update`. -/
def updateLoop (customer_id : String) (name email : Option String)
    (customers : List Customer) : Option Customer × List Customer :=
  customers.foldl (updateStep customer_id name email) (none, [])

/-- `CustomerService.update`. -/
def update (s : Store) (customer_id : String) (name email : Option String) :
    Option Customer × Store :=
  match updateLoop customer_id name email s.customers with
  | (none, _) => (none, s)
  | (some u, new_customers) => (some u, { s with customers := new_customers })

end CustomerService

namespace ReservationService

/-- `ReservationService.create`, in source order: find the hotel (else
`ValueError "Hotel no existe"`), find the customer (else
`ValueError "Cliente no existe"`), build the candidate via
`Reservation.create` (surfacing its `ValueError`), count stored
reservations of the same hotel overlapping the candidate, fail with the
capacity `ValueError` when that count is `>= total_rooms`, otherwise
append and save.  Every failure happens before the save. -/
def create (s : Store) (newId customer_id hotel_id : String)
    (check_in check_out : Date) : Except PyError Reservation × Store :=
  match s.hotels.find? (fun h => h.id == hotel_id) with
  | none => (.error (.valueError "Hotel no existe"), s)
  | some hotel =>
    match s.customers.find? (fun c => c.id == customer_id) with
    | none => (.error (.valueError "Cliente no existe"), s)
    | some _ =>
      match Reservation.create newId customer_id hotel_id check_in check_out with
      | .error e => (.error e, s)
      | .ok new_res =>
        let overlapping := s.reservations.filter
          (fun r => r.hotel_id == hotel_id && r.overlaps new_res)
        if hotel.total_rooms ≤ (overlapping.length : Int) then
          (.error (.valueError
            "No hay habitaciones disponibles para ese rango de fechas"), s)
        else
          (.ok new_res, { s with reservations := s.reservations ++ [new_res] })

/-- `ReservationService.cancel`: drop the matching reservation; `False`
without writing when none matched. -/
def cancel (s : Store) (reservation_id : String) : Bool × Store :=
  let new_res := s.reservations.filter (fun r => !(r.id == reservation_id))
  if new_res.length = s.reservations.length then (false, s)
  else (true, { s with reservations := new_res })

/-- `ReservationService.get`. -/
def get (s : Store) (reservation_id : String) : Option Reservation :=
  s.reservations.find? (fun r => r.id == reservation_id)

end ReservationService

/-! ## Operation sequences

One constructor per public Service operation.  The `newId` argument of the
create operations stands for the `uuid4().hex` the code draws; a trace is
`Fresh` when each drawn id is new for its collection, which is the
guarantee uuid generation provides. -/

inductive Op where
  | hotelCreate (newId name : String) (total_rooms : Int)
  | hotelGet (hotel_id : String)
  | hotelUpdate (hotel_id : String) (name : Option String)
      (total_rooms : Option Int)
  | hotelDelete (hotel_id : String)
  | customerCreate (newId name email : String)
  | customerGet (customer_id : String)
  | customerUpdate (customer_id : String) (name email : Option String)
  | customerDelete (customer_id : String)
  | resCreate (newId customer_id hotel_id : String) (check_in check_out : Date)
  | resGet (reservation_id : String)
  | resCancel (reservation_id : String)

/-- The store after one completed Service operation (on an exception the
operation wrote nothing, so the store is unchanged). -/
def applyOp (s : Store) : Op → Store
  | .hotelCreate newId name total_rooms =>
      (HotelService.create s newId name total_rooms).2
  | .hotelGet _ => s
  | .hotelUpdate hotel_id name total_rooms =>
      (HotelService.update s hotel_id name total_rooms).2
  | .hotelDelete hotel_id => (HotelService.deleteH s hotel_id).2
  | .customerCreate newId name email =>
      (CustomerService.create s newId name email).2
  | .customerGet _ => s
  | .customerUpdate customer_id name email =>
      (CustomerService.update s customer_id name email).2
  | .customerDelete customer_id => (CustomerService.deleteC s customer_id).2
  | .resCreate newId customer_id hotel_id ci co =>
      (ReservationService.create s newId customer_id hotel_id ci co).2
  | .resGet _ => s
  | .resCancel reservation_id => (ReservationService.cancel s reservation_id).2

/-- The store after a finite sequence of Service operations. -/
def execOps (s : Store) (ops : List Op) : Store := ops.foldl applyOp s

/-- The id drawn by a create operation is fresh for its collection —
the behaviour of `uuid4().hex` the code relies on. -/
def opFresh (s : Store) : Op → Bool
  | .hotelCreate newId _ _ => s.hotels.all (fun h => h.id != newId)
  | .customerCreate newId _ _ => s.customers.all (fun c => c.id != newId)
  | .resCreate newId _ _ _ _ => s.reservations.all (fun r => r.id != newId)
  | _ => true

/-- Every create operation along the trace draws a fresh id. -/
def Fresh : Store → List Op → Bool
  | _, [] => true
  | s, op :: rest => opFresh s op && Fresh (applyOp s op) rest

/-- A hotel update that lowers some hotel's `total_rooms` — possible
because the partial-update policy only requires the new count to be
positive. -/
def opShrinks (s : Store) : Op → Bool
  | .hotelUpdate hotel_id _ (some t) =>
      decide (0 < t) &&
        s.hotels.any (fun h => h.id == hotel_id && decide (t < h.total_rooms))
  | _ => false

/-- No operation along the trace lowers a hotel's room count. -/
def NoShrink : Store → List Op → Bool
  | _, [] => true
  | s, op :: rest => !opShrinks s op && NoShrink (applyOp s op) rest

/-- The number of stored reservations for hotel `hid` whose half-open
interval `[check_in, check_out)` contains the date `t` — the quantity the
core capacity invariant bounds. -/
def countActive (rs : List Reservation) (hid : String) (t : Date) : Nat :=
  (rs.filter (fun r =>
    r.hotel_id == hid && decide (r.check_in ≤ t) && decide (t < r.check_out))).length

/-- Referential integrity: every stored reservation references a stored
hotel and a stored customer. -/
def RefInt (s : Store) : Prop :=
  ∀ r ∈ s.reservations,
    (∃ h ∈ s.hotels, h.id = r.hotel_id) ∧ (∃ c ∈ s.customers, c.id = r.customer_id)

/-- The capacity bound of the core invariant: at every hotel and date, the
active reservations do not outnumber the rooms. -/
def CapacityOK (s : Store) : Prop :=
  ∀ h ∈ s.hotels, ∀ t : Date,
    (countActive s.reservations h.id t : Int) ≤ h.total_rooms

/-! ## Characterisation of the update loops -/

namespace HotelService

/-- The replacement remembered after scanning `hs` left to right, starting
from `u0`. -/
def lastUpd (hotel_id : String) (name : Option String) (tr : Option Int) :
    Option Hotel → List Hotel → Option Hotel
  | u0, [] => u0
  | u0, h :: t =>
      lastUpd hotel_id name tr
        (if h.id == hotel_id then some (updateHotel name tr h) else u0) t

theorem hotel_foldl_updateStep (hotel_id : String) (name : Option String)
    (tr : Option Int) (hs : List Hotel) (u0 : Option Hotel) (out0 : List Hotel) :
    hs.foldl (updateStep hotel_id name tr) (u0, out0) =
      (lastUpd hotel_id name tr u0 hs,
        out0 ++ hs.map (fun h => if h.id == hotel_id then updateHotel name tr h else h)) := by
  induction hs generalizing u0 out0 with
  | nil => simp [lastUpd]
  | cons h t ih =>
      by_cases hm : h.id = hotel_id <;>
        simp [List.foldl_cons, lastUpd, updateStep, hm, ih]

theorem lastUpd_append (hotel_id : String) (name : Option String)
    (tr : Option Int) (u0 : Option Hotel) (l1 l2 : List Hotel) :
    lastUpd hotel_id name tr u0 (l1 ++ l2) =
      lastUpd hotel_id name tr (lastUpd hotel_id name tr u0 l1) l2 := by
  induction l1 generalizing u0 with
  | nil => simp [lastUpd]
  | cons h t ih => simp [lastUpd, ih]

theorem lastUpd_no_match (hotel_id : String) (name : Option String)
    (tr : Option Int) (u0 : Option Hotel) (hs : List Hotel)
    (h : ∀ x ∈ hs, (x.id == hotel_id) = false) :
    lastUpd hotel_id name tr u0 hs = u0 := by
  induction hs generalizing u0 with
  | nil => rfl
  | cons x t ih =>
      simp only [lastUpd, h x (by simp)]
      exact ih _ fun y hy => h y (by simp [hy])

/-- `updateHotel` never touches the id. -/
theorem updateHotel_id (name : Option String) (tr : Option Int) (h : Hotel) :
    (updateHotel name tr h).id = h.id := rfl

/-- `HotelService.update` when no stored hotel carries the id: absence, and
nothing is written. -/
theorem update_no_match (s : Store) (hotel_id : String) (name : Option String)
    (tr : Option Int) (hno : ∀ x ∈ s.hotels, (x.id == hotel_id) = false) :
    update s hotel_id name tr = (none, s) := by
  unfold update updateLoop
  rw [hotel_foldl_updateStep, lastUpd_no_match _ _ _ _ _ hno]

/-- `HotelService.update` when exactly one stored hotel carries the id:
that record is replaced in place and returned. -/
theorem update_unique_match (s : Store) (hotel_id : String)
    (name : Option String) (tr : Option Int) (pre : List Hotel) (h : Hotel)
    (post : List Hotel) (hs_eq : s.hotels = pre ++ h :: post)
    (hpre : ∀ x ∈ pre, (x.id == hotel_id) = false)
    (hpost : ∀ x ∈ post, (x.id == hotel_id) = false)
    (hm : (h.id == hotel_id) = true) :
    update s hotel_id name tr =
      (some (updateHotel name tr h),
        { s with hotels := pre ++ updateHotel name tr h :: post }) := by
  unfold update updateLoop
  rw [hs_eq, hotel_foldl_updateStep, lastUpd_append]
  rw [lastUpd_no_match _ _ _ _ _ hpre]
  simp only [lastUpd, hm, if_pos]
  rw [lastUpd_no_match _ _ _ _ _ hpost]
  simp only [List.map_append, List.map_cons, hm, if_pos, List.nil_append]
  have hpre1 : pre.map (fun x => if x.id == hotel_id then updateHotel name tr x else x)
      = pre.map (fun x => x) := List.map_congr_left fun x hx => by simp [hpre x hx]
  have hpost1 : post.map (fun x => if x.id == hotel_id then updateHotel name tr x else x)
      = post.map (fun x => x) := List.map_congr_left fun x hx => by simp [hpost x hx]
  have hpre2 : pre.map (fun x => x) = pre := by simp
  have hpost2 : post.map (fun x => x) = post := by simp
  rw [hpre1, hpre2, hpost1, hpost2]

end HotelService

namespace CustomerService

/-- The replacement remembered by the customer update loop. -/
def lastUpd (customer_id : String) (name email : Option String) :
    Option Customer → List Customer → Option Customer
  | u0, [] => u0
  | u0, c :: t =>
      lastUpd customer_id name email
        (if c.id == customer_id then some (updateCustomer name email c) else u0) t

theorem customer_foldl_updateStep (customer_id : String) (name email : Option String)
    (cs : List Customer) (u0 : Option Customer) (out0 : List Customer) :
    cs.foldl (updateStep customer_id name email) (u0, out0) =
      (lastUpd customer_id name email u0 cs,
        out0 ++ cs.map
          (fun c => if c.id == customer_id then updateCustomer name email c else c)) := by
  induction cs generalizing u0 out0 with
  | nil => simp [lastUpd]
  | cons c t ih =>
      by_cases hm : c.id = customer_id <;>
        simp [List.foldl_cons, lastUpd, updateStep, hm, ih]

/-- `updateCustomer` never touches the id. -/
theorem updateCustomer_id (name email : Option String) (c : Customer) :
    (updateCustomer name email c).id = c.id := rfl

end CustomerService

/-- Round trip justifying the `Store` abstraction of storage: a saved
hotels file loads back to exactly the saved hotels. -/
theorem load_save_hotels (hs : List Hotel) :
    JsonStorage.load_hotels (JsonStorage.save_hotels hs) = .ok hs := by
  have key : ∀ l : List Hotel,
      JsonStorage.loadItems JsonStorage.loadHotelItem (l.map JsonStorage.hotelAsdict)
        = .ok l := by
    intro l
    induction l with
    | nil => rfl
    | cons h t ih =>
        simp only [List.map_cons, JsonStorage.loadItems, JsonStorage.loadHotelItem,
          JsonStorage.hotelAsdict, List.lookup, beq_self_eq_true, jsonGet, pyStr, pyInt]
        rw [ih]
        rfl
  exact key hs

/-- Round trip for the customers file. -/
theorem load_save_customers (cs : List Customer) :
    JsonStorage.load_customers (JsonStorage.save_customers cs) = .ok cs := by
  have key : ∀ l : List Customer,
      JsonStorage.loadItems JsonStorage.loadCustomerItem (l.map JsonStorage.customerAsdict)
        = .ok l := by
    intro l
    induction l with
    | nil => rfl
    | cons c t ih =>
        simp only [List.map_cons, JsonStorage.loadItems, JsonStorage.loadCustomerItem,
          JsonStorage.customerAsdict, List.lookup, beq_self_eq_true, pyStr]
        rw [ih]
        rfl
  exact key cs

/-- A valid `Reservation.create` call returns the record unchanged. -/
theorem Reservation.create_ok (newId cid hid : String) (ci co : Date)
    (hv : ci < co) (hcid : cid ≠ "") (hhid : hid ≠ "") :
    Reservation.create newId cid hid ci co =
      .ok { id := newId, customer_id := cid, hotel_id := hid,
            check_in := ci, check_out := co } := by
  unfold Reservation.create Reservation.postInit pyStrFalsy
  split_ifs with h1 h2 h3
  · exact absurd h1 (not_le.mpr hv)
  · rw [String.isEmpty_iff] at h2
    exact absurd h2 hcid
  · rw [String.isEmpty_iff] at h3
    exact absurd h3 hhid
  · rfl

/-! ## Effect of each operation on the store -/

/-- A successful `Hotel.create` fixes the id, the trimmed name and the
validated positive room count. -/
theorem hotel_create_ok_spec (newId name : String) (tr : Int) (h : Hotel)
    (hcr : Hotel.create newId name tr = .ok h) :
    h.id = newId ∧ h.total_rooms = tr ∧ 0 < h.total_rooms := by
  unfold Hotel.create at hcr
  split_ifs at hcr with h1 h2
  simp only [Except.ok.injEq] at hcr
  rw [← hcr]
  exact ⟨rfl, rfl, not_le.mp h2⟩

/-- A successful `Reservation.create` returns exactly the candidate
record. -/
theorem reservation_create_ok_spec (newId cid hid : String) (ci co : Date)
    (r : Reservation)
    (hcr : Reservation.create newId cid hid ci co = .ok r) :
    r = { id := newId, customer_id := cid, hotel_id := hid,
          check_in := ci, check_out := co } := by
  unfold Reservation.create Reservation.postInit at hcr
  split_ifs at hcr
  simpa using hcr.symm

/-- `HotelService.create` either writes nothing or appends the validated
hotel. -/
theorem hotelService_create_store (s : Store) (newId name : String) (tr : Int) :
    (HotelService.create s newId name tr).2 = s ∨
    ∃ h, Hotel.create newId name tr = .ok h ∧
      (HotelService.create s newId name tr).2 = { s with hotels := s.hotels ++ [h] } := by
  unfold HotelService.create
  cases hc : Hotel.create newId name tr with
  | error e => left; rfl
  | ok h => right; exact ⟨h, rfl, rfl⟩

/-- `HotelService.update` keeps customers and reservations, and either
keeps the hotels or replaces each matching record in place. -/
theorem hotelService_update_store (s : Store) (hid : String)
    (name : Option String) (tr : Option Int) :
    ((HotelService.update s hid name tr).2.hotels = s.hotels ∨
      (HotelService.update s hid name tr).2.hotels =
        s.hotels.map (fun h =>
          if h.id == hid then HotelService.updateHotel name tr h else h)) ∧
    (HotelService.update s hid name tr).2.customers = s.customers ∧
    (HotelService.update s hid name tr).2.reservations = s.reservations := by
  unfold HotelService.update HotelService.updateLoop
  rw [HotelService.hotel_foldl_updateStep]
  cases HotelService.lastUpd hid name tr none s.hotels with
  | none => exact ⟨Or.inl rfl, rfl, rfl⟩
  | some u => exact ⟨Or.inr (by simp), rfl, rfl⟩

/-- `HotelService.delete` either writes nothing or filters both the hotels
and the reservations by the id. -/
theorem hotelService_delete_store (s : Store) (hid : String) :
    (HotelService.deleteH s hid).2 = s ∨
    (HotelService.deleteH s hid).2 =
      { hotels := s.hotels.filter (fun h => !(h.id == hid)),
        customers := s.customers,
        reservations := s.reservations.filter (fun r => !(r.hotel_id == hid)) } := by
  unfold HotelService.deleteH
  dsimp only
  split_ifs
  · exact Or.inl rfl
  · exact Or.inr rfl

/-- `CustomerService.create` keeps hotels and reservations and at most
appends a customer. -/
theorem customerService_create_store (s : Store) (newId name email : String) :
    (CustomerService.create s newId name email).2.hotels = s.hotels ∧
    (CustomerService.create s newId name email).2.reservations = s.reservations ∧
    ((CustomerService.create s newId name email).2.customers = s.customers ∨
      ∃ c, (CustomerService.create s newId name email).2.customers = s.customers ++ [c]) := by
  unfold CustomerService.create
  cases hc : Customer.create newId name email with
  | error e => exact ⟨rfl, rfl, Or.inl rfl⟩
  | ok c => exact ⟨rfl, rfl, Or.inr ⟨c, rfl⟩⟩

/-- `CustomerService.update` keeps hotels and reservations and keeps every
customer id (each record is at most replaced by one with the same id). -/
theorem customerService_update_store (s : Store) (cid : String)
    (name email : Option String) :
    (CustomerService.update s cid name email).2.hotels = s.hotels ∧
    (CustomerService.update s cid name email).2.reservations = s.reservations ∧
    ((CustomerService.update s cid name email).2.customers = s.customers ∨
      (CustomerService.update s cid name email).2.customers =
        s.customers.map (fun c =>
          if c.id == cid then CustomerService.updateCustomer name email c else c)) := by
  unfold CustomerService.update CustomerService.updateLoop
  rw [CustomerService.customer_foldl_updateStep]
  cases CustomerService.lastUpd cid name email none s.customers with
  | none => exact ⟨rfl, rfl, Or.inl rfl⟩
  | some u => exact ⟨rfl, rfl, Or.inr (by simp)⟩

/-- `CustomerService.delete` either writes nothing or filters both the
customers and the reservations by the id. -/
theorem customerService_delete_store (s : Store) (cid : String) :
    (CustomerService.deleteC s cid).2 = s ∨
    (CustomerService.deleteC s cid).2 =
      { hotels := s.hotels,
        customers := s.customers.filter (fun c => !(c.id == cid)),
        reservations := s.reservations.filter (fun r => !(r.customer_id == cid)) } := by
  unfold CustomerService.deleteC
  dsimp only
  split_ifs
  · exact Or.inl rfl
  · exact Or.inr rfl

/-- `ReservationService.create` either writes nothing or — after both
existence checks, the candidate's validation and the capacity check all
pass — appends exactly the candidate. -/
theorem reservationService_create_store (s : Store) (newId cid hid : String)
    (ci co : Date) :
    (ReservationService.create s newId cid hid ci co).2 = s ∨
    ∃ hotel, s.hotels.find? (fun h => h.id == hid) = some hotel ∧
      (s.customers.find? (fun c => c.id == cid)).isSome ∧
      ((s.reservations.filter (fun r => r.hotel_id == hid &&
          r.overlaps { id := newId, customer_id := cid, hotel_id := hid,
                       check_in := ci, check_out := co })).length : Int)
        < hotel.total_rooms ∧
      (ReservationService.create s newId cid hid ci co).2 =
        { s with reservations := s.reservations ++
            [{ id := newId, customer_id := cid, hotel_id := hid,
               check_in := ci, check_out := co }] } := by
  unfold ReservationService.create
  cases hh : s.hotels.find? (fun h => h.id == hid) with
  | none => left; rfl
  | some hotel =>
    cases hcf : s.customers.find? (fun c => c.id == cid) with
    | none => left; rfl
    | some c =>
      cases hcr : Reservation.create newId cid hid ci co with
      | error e => left; rfl
      | ok nr =>
        have hnr := reservation_create_ok_spec newId cid hid ci co nr hcr
        subst hnr
        by_cases hcap : hotel.total_rooms ≤
            ((s.reservations.filter (fun r => r.hotel_id == hid &&
              r.overlaps { id := newId, customer_id := cid, hotel_id := hid,
                           check_in := ci, check_out := co })).length : Int)
        · left
          simp [hcap]
        · right
          exact ⟨hotel, rfl, by simp, not_le.mp hcap, by simp [hcap]⟩

/-- `ReservationService.cancel` either writes nothing or filters the
reservations by the id. -/
theorem reservationService_cancel_store (s : Store) (rid : String) :
    (ReservationService.cancel s rid).2 = s ∨
    (ReservationService.cancel s rid).2 =
      { s with reservations := s.reservations.filter (fun r => !(r.id == rid)) } := by
  unfold ReservationService.cancel
  dsimp only
  split_ifs
  · exact Or.inl rfl
  · exact Or.inr rfl

/-! ## Claims -/

/-- C6: `overlaps(r1, r2)` returns true iff
`max(r1.check_in, r2.check_in) < min(r1.check_out, r2.check_out)`; when one
reservation's `check_out` equals the other's `check_in` the two do not
overlap; and `overlaps` is symmetric. -/
theorem C6_overlaps_characterisation (r1 r2 : Reservation) :
    (Reservation.overlaps r1 r2 = true ↔
      max r1.check_in r2.check_in < min r1.check_out r2.check_out) ∧
    (r1.check_out = r2.check_in → Reservation.overlaps r1 r2 = false) ∧
    Reservation.overlaps r1 r2 = Reservation.overlaps r2 r1 := by
  refine ⟨by simp [Reservation.overlaps], ?_, ?_⟩
  · intro hb
    have hle : min r1.check_out r2.check_out ≤ max r1.check_in r2.check_in := by
      calc min r1.check_out r2.check_out ≤ r1.check_out := min_le_left _ _
        _ = r2.check_in := hb
        _ ≤ max r1.check_in r2.check_in := le_max_right _ _
    simp only [Reservation.overlaps, decide_eq_false_iff_not, not_lt]
    exact hle
  · simp only [Reservation.overlaps]
    rw [max_comm, min_comm]

/-- C6 witness: the boundary-sharing pair from the repository's own test,
`[2024-01-10, 2024-01-11)` against `[2024-01-11, 2024-01-12)`. -/
theorem C6_witness :
    Reservation.overlaps
      { id := "a", customer_id := "c", hotel_id := "h",
        check_in := ⟨2024, 1, 10⟩, check_out := ⟨2024, 1, 11⟩ }
      { id := "b", customer_id := "c", hotel_id := "h",
        check_in := ⟨2024, 1, 11⟩, check_out := ⟨2024, 1, 12⟩ } = false :=
  (C6_overlaps_characterisation _ _).2.1 rfl

/-- C9 counterexample: a whitespace-only (blank but nonempty) `customer_id`
is *accepted* by `Reservation.create`, although the claim says an
empty-or-blank id must fail: the falsy test `not self.customer_id` only
rejects the empty string. -/
theorem C9_counterexample :
    pyStrip " " = "" ∧
    Reservation.create "r1" " " "h1" ⟨2024, 1, 1⟩ ⟨2024, 1, 2⟩ =
      .ok { id := "r1", customer_id := " ", hotel_id := "h1",
            check_in := ⟨2024, 1, 1⟩, check_out := ⟨2024, 1, 2⟩ } :=
  ⟨by decide, by decide⟩

/-- C9 (amended): `Reservation.create` fails with a `ValueError` exactly
when `check_in >= check_out` or either id is the **empty string** (a blank
but nonempty id passes); otherwise it returns a Reservation carrying the
four field values and the fresh id. -/
theorem C9_reservation_create_validation (newId cid hid : String)
    (ci co : Date) :
    ((∃ msg, Reservation.create newId cid hid ci co = .error (.valueError msg)) ↔
      co ≤ ci ∨ cid = "" ∨ hid = "") ∧
    (ci < co → cid ≠ "" → hid ≠ "" →
      Reservation.create newId cid hid ci co =
        .ok { id := newId, customer_id := cid, hotel_id := hid,
              check_in := ci, check_out := co }) := by
  unfold Reservation.create Reservation.postInit pyStrFalsy
  split_ifs with h1 h2 h3
  · exact ⟨⟨fun _ => Or.inl h1, fun _ => ⟨_, rfl⟩⟩,
      fun hlt _ _ => absurd h1 (not_le.mpr hlt)⟩
  · rw [String.isEmpty_iff] at h2
    exact ⟨⟨fun _ => Or.inr (Or.inl h2), fun _ => ⟨_, rfl⟩⟩,
      fun _ hcid _ => absurd h2 hcid⟩
  · rw [String.isEmpty_iff] at h3
    exact ⟨⟨fun _ => Or.inr (Or.inr h3), fun _ => ⟨_, rfl⟩⟩,
      fun _ _ hhid => absurd h3 hhid⟩
  · rw [String.isEmpty_iff] at h2 h3
    refine ⟨⟨fun ⟨msg, hmsg⟩ => absurd hmsg (by simp), ?_⟩, fun _ _ _ => rfl⟩
    rintro (hle | hcid | hhid)
    · exact absurd hle h1
    · exact absurd hcid h2
    · exact absurd hhid h3

/-- C9 witness: a valid creation succeeds with the given fields. -/
theorem C9_witness :
    Reservation.create "r1" "c1" "h1" ⟨2024, 5, 1⟩ ⟨2024, 5, 3⟩ =
      .ok { id := "r1", customer_id := "c1", hotel_id := "h1",
            check_in := ⟨2024, 5, 1⟩, check_out := ⟨2024, 5, 3⟩ } :=
  (C9_reservation_create_validation "r1" "c1" "h1" ⟨2024, 5, 1⟩ ⟨2024, 5, 3⟩).2
    (by decide) (by decide) (by decide)

/-- C2: the loaders are **not** exception-free, contradicting the claim.
A valid JSON array holding one well-formed hotel record and one record
missing the required `"id"` field makes `load_hotels` raise `KeyError`
(returning nothing, instead of the one well-formed entity); an absent file
raises `FileNotFoundError` through the uncaught `OSError` path; a customer
record missing `"email"` likewise raises.  The tolerant paths the code does
implement (undecodable text; a missing non-`id` field, which surfaces as a
caught `TypeError`) are shown alongside. -/
theorem C2_load_raises :
    JsonStorage.load_hotels (.parsed (.jarr
      [.jobj [("id", .jstr "h1"), ("name", .jstr "B"), ("total_rooms", .jnum 3)],
       .jobj [("name", .jstr "A"), ("total_rooms", .jnum 2)]])) =
      .error (.keyError "id") ∧
    JsonStorage.load_hotels .absent = .error .fileNotFoundError ∧
    JsonStorage.load_customers (.parsed (.jarr
      [.jobj [("id", .jstr "c1"), ("name", .jstr "N"), ("email", .jstr "n@x.com")],
       .jobj [("id", .jstr "c2"), ("name", .jstr "M")]])) =
      .error (.keyError "email") ∧
    JsonStorage.load_hotels .malformed = .ok [] ∧
    JsonStorage.load_hotels .blank = .ok [] ∧
    JsonStorage.load_hotels (.parsed (.jarr [.jobj [("id", .jstr "x")]])) = .ok [] :=
  ⟨rfl, rfl, rfl, rfl, rfl, rfl⟩

/-- C3 counterexample: `load_hotels` hand-constructs the `Hotel` dataclass
with no validation, so a file record with `total_rooms = 0` is returned as
a `Hotel` violating `total_rooms > 0`. -/
theorem C3_counterexample :
    JsonStorage.load_hotels (.parsed (.jarr
      [.jobj [("id", .jstr "x"), ("name", .jstr "y"), ("total_rooms", .jnum 0)]])) =
      .ok [{ id := "x", name := "y", total_rooms := 0 }] ∧
    ¬ (0 < ({ id := "x", name := "y", total_rooms := 0 } : Hotel).total_rooms) :=
  ⟨rfl, by decide⟩

/-- C10: when the domain factory rejects the input, `HotelService.create`
and `CustomerService.create` surface the `ValueError` before any save, so
the returned store is exactly the input store. -/
theorem C10_service_create_atomic (s : Store) (newId name email : String)
    (total_rooms : Int) :
    (∀ e, Hotel.create newId name total_rooms = .error e →
      HotelService.create s newId name total_rooms = (.error e, s)) ∧
    (∀ e, Customer.create newId name email = .error e →
      CustomerService.create s newId name email = (.error e, s)) := by
  constructor
  · intro e he
    simp [HotelService.create, he]
  · intro e he
    simp [CustomerService.create, he]

/-- C10 witness: a blank hotel name and a malformed customer email leave a
nonempty store untouched. -/
theorem C10_witness :
    HotelService.create
      { hotels := [{ id := "h0", name := "HX", total_rooms := 2 }],
        customers := [], reservations := [] } "h1" " " 3 =
      (.error (.valueError "Hotel.name no puede estar vacio"),
        { hotels := [{ id := "h0", name := "HX", total_rooms := 2 }],
          customers := [], reservations := [] }) ∧
    CustomerService.create
      { hotels := [], customers := [{ id := "c0", name := "N", email := "n@x.com" }],
        reservations := [] } "c1" "Bob" "not-an-email" =
      (.error (.valueError "Customer.email invalido"),
        { hotels := [], customers := [{ id := "c0", name := "N", email := "n@x.com" }],
          reservations := [] }) :=
  ⟨(C10_service_create_atomic _ "h1" " " "n@x.com" 3).1 _ (by decide),
   (C10_service_create_atomic _ "c1" "Bob" "not-an-email" 3).2 _ (by decide)⟩

/-- C4: when the hotel and customer ids exist and the candidate dates are
valid, `ReservationService.create` fails with `CapacityExceededError`
(the capacity `ValueError`) exactly when the stored same-hotel overlap
count is `>= total_rooms` — writing nothing, the store is returned
unchanged — and otherwise appends the candidate, saves, and returns it. -/
theorem C4_capacity_check (s : Store) (newId cid hid : String) (ci co : Date)
    (hotel : Hotel)
    (hh : s.hotels.find? (fun h => h.id == hid) = some hotel)
    (hc : (s.customers.find? (fun c => c.id == cid)).isSome)
    (hv : ci < co) (hcid : cid ≠ "") (hhid : hid ≠ "") :
    (hotel.total_rooms ≤ ((s.reservations.filter (fun r => r.hotel_id == hid &&
        r.overlaps { id := newId, customer_id := cid, hotel_id := hid,
                     check_in := ci, check_out := co })).length : Int) →
      ReservationService.create s newId cid hid ci co =
        (.error (.valueError
          "No hay habitaciones disponibles para ese rango de fechas"), s)) ∧
    (((s.reservations.filter (fun r => r.hotel_id == hid &&
        r.overlaps { id := newId, customer_id := cid, hotel_id := hid,
                     check_in := ci, check_out := co })).length : Int) < hotel.total_rooms →
      ReservationService.create s newId cid hid ci co =
        (.ok { id := newId, customer_id := cid, hotel_id := hid,
               check_in := ci, check_out := co },
          { s with reservations := s.reservations ++
              [{ id := newId, customer_id := cid, hotel_id := hid,
                 check_in := ci, check_out := co }] })) := by
  obtain ⟨c, hcfind⟩ := Option.isSome_iff_exists.mp hc
  unfold ReservationService.create
  rw [hh, hcfind, Reservation.create_ok newId cid hid ci co hv hcid hhid]
  constructor
  · intro hge
    simp [hge]
  · intro hlt
    simp [not_le.mpr hlt]

/-- C4 witness: the spec's concrete scenario — hotel `Cap` with one room
and stay `[2024-06-01, 2024-06-03)` booked: the overlapping candidate
`[2024-06-02, 2024-06-04)` is rejected with the store unchanged, and the
boundary-sharing candidate `[2024-06-03, 2024-06-04)` is appended. -/
theorem C4_witness :
    ReservationService.create
      { hotels := [{ id := "h1", name := "Cap", total_rooms := 1 }],
        customers := [{ id := "c1", name := "C1", email := "c1@example.com" },
                      { id := "c2", name := "C2", email := "c2@example.com" }],
        reservations := [{ id := "r1", customer_id := "c1", hotel_id := "h1",
                           check_in := ⟨2024, 6, 1⟩, check_out := ⟨2024, 6, 3⟩ }] }
      "r2" "c2" "h1" ⟨2024, 6, 2⟩ ⟨2024, 6, 4⟩ =
      (.error (.valueError
        "No hay habitaciones disponibles para ese rango de fechas"),
        { hotels := [{ id := "h1", name := "Cap", total_rooms := 1 }],
          customers := [{ id := "c1", name := "C1", email := "c1@example.com" },
                        { id := "c2", name := "C2", email := "c2@example.com" }],
          reservations := [{ id := "r1", customer_id := "c1", hotel_id := "h1",
                             check_in := ⟨2024, 6, 1⟩, check_out := ⟨2024, 6, 3⟩ }] }) ∧
    ReservationService.create
      { hotels := [{ id := "h1", name := "Cap", total_rooms := 1 }],
        customers := [{ id := "c1", name := "C1", email := "c1@example.com" },
                      { id := "c2", name := "C2", email := "c2@example.com" }],
        reservations := [{ id := "r1", customer_id := "c1", hotel_id := "h1",
                           check_in := ⟨2024, 6, 1⟩, check_out := ⟨2024, 6, 3⟩ }] }
      "r2" "c2" "h1" ⟨2024, 6, 3⟩ ⟨2024, 6, 4⟩ =
      (.ok { id := "r2", customer_id := "c2", hotel_id := "h1",
             check_in := ⟨2024, 6, 3⟩, check_out := ⟨2024, 6, 4⟩ },
        { hotels := [{ id := "h1", name := "Cap", total_rooms := 1 }],
          customers := [{ id := "c1", name := "C1", email := "c1@example.com" },
                        { id := "c2", name := "C2", email := "c2@example.com" }],
          reservations := [{ id := "r1", customer_id := "c1", hotel_id := "h1",
                             check_in := ⟨2024, 6, 1⟩, check_out := ⟨2024, 6, 3⟩ },
                           { id := "r2", customer_id := "c2", hotel_id := "h1",
                             check_in := ⟨2024, 6, 3⟩, check_out := ⟨2024, 6, 4⟩ }] }) :=
  ⟨(C4_capacity_check _ "r2" "c2" "h1" ⟨2024, 6, 2⟩ ⟨2024, 6, 4⟩
      { id := "h1", name := "Cap", total_rooms := 1 }
      (by decide) (by decide) (by decide) (by decide) (by decide)).1 (by decide),
   (C4_capacity_check _ "r2" "c2" "h1" ⟨2024, 6, 3⟩ ⟨2024, 6, 4⟩
      { id := "h1", name := "Cap", total_rooms := 1 }
      (by decide) (by decide) (by decide) (by decide) (by decide)).2 (by decide)⟩

/-- C7: `HotelService.delete` returns false without writing when no hotel
matches; when one matches it removes the matching hotel, removes exactly
the reservations referencing the id (reservations of other hotels are
preserved unchanged, customers untouched), saves both collections, and
returns true. -/
theorem C7_hotel_delete (s : Store) (hid : String) :
    ((∀ h ∈ s.hotels, h.id ≠ hid) → HotelService.deleteH s hid = (false, s)) ∧
    ((∃ h ∈ s.hotels, h.id = hid) →
      HotelService.deleteH s hid =
        (true,
          { hotels := s.hotels.filter (fun h => !(h.id == hid)),
            customers := s.customers,
            reservations := s.reservations.filter (fun r => !(r.hotel_id == hid)) })) ∧
    (∀ r ∈ s.reservations, r.hotel_id ≠ hid →
      r ∈ (HotelService.deleteH s hid).2.reservations) ∧
    (∀ r ∈ (HotelService.deleteH s hid).2.reservations,
      r ∈ s.reservations ∧ ((HotelService.deleteH s hid).1 = true → r.hotel_id ≠ hid)) := by
  refine ⟨?_, ?_, ?_, ?_⟩
  · intro hno
    have hself : s.hotels.filter (fun h => !(h.id == hid)) = s.hotels :=
      List.filter_eq_self.mpr fun h hm => by simp [hno h hm]
    unfold HotelService.deleteH
    rw [hself, if_pos rfl]
  · rintro ⟨h, hm, hid_eq⟩
    have hne : (s.hotels.filter (fun x => !(x.id == hid))).length ≠ s.hotels.length := by
      intro heq
      have hall := List.filter_length_eq_length.mp heq h hm
      simp [hid_eq] at hall
    unfold HotelService.deleteH
    rw [if_neg hne]
  · intro r hr hne
    unfold HotelService.deleteH
    dsimp only
    split_ifs
    · exact hr
    · exact List.mem_filter.mpr ⟨hr, by simp [hne]⟩
  · intro r hr
    unfold HotelService.deleteH at hr ⊢
    dsimp only at hr ⊢
    split_ifs at hr ⊢ with hc
    · exact ⟨hr, by simp⟩
    · have hmem := List.mem_filter.mp hr
      refine ⟨hmem.1, fun _ => ?_⟩
      simpa using hmem.2

/-- C7 witness: deleting hotel `h1` removes it and its reservation while
the reservation of `h2` survives; deleting an unknown id writes nothing. -/
theorem C7_witness :
    HotelService.deleteH
      { hotels := [{ id := "h1", name := "A", total_rooms := 1 },
                   { id := "h2", name := "B", total_rooms := 2 }],
        customers := [{ id := "c1", name := "C1", email := "c1@example.com" }],
        reservations := [{ id := "r1", customer_id := "c1", hotel_id := "h1",
                           check_in := ⟨2024, 6, 1⟩, check_out := ⟨2024, 6, 3⟩ },
                         { id := "r2", customer_id := "c1", hotel_id := "h2",
                           check_in := ⟨2024, 6, 1⟩, check_out := ⟨2024, 6, 3⟩ }] }
      "h1" =
      (true,
        { hotels := [{ id := "h2", name := "B", total_rooms := 2 }],
          customers := [{ id := "c1", name := "C1", email := "c1@example.com" }],
          reservations := [{ id := "r2", customer_id := "c1", hotel_id := "h2",
                             check_in := ⟨2024, 6, 1⟩, check_out := ⟨2024, 6, 3⟩ }] }) ∧
    HotelService.deleteH
      { hotels := [{ id := "h2", name := "B", total_rooms := 2 }],
        customers := [], reservations := [] } "zz" =
      (false, { hotels := [{ id := "h2", name := "B", total_rooms := 2 }],
                customers := [], reservations := [] }) :=
  ⟨by
    have := (C7_hotel_delete
      { hotels := [{ id := "h1", name := "A", total_rooms := 1 },
                   { id := "h2", name := "B", total_rooms := 2 }],
        customers := [{ id := "c1", name := "C1", email := "c1@example.com" }],
        reservations := [{ id := "r1", customer_id := "c1", hotel_id := "h1",
                           check_in := ⟨2024, 6, 1⟩, check_out := ⟨2024, 6, 3⟩ },
                         { id := "r2", customer_id := "c1", hotel_id := "h2",
                           check_in := ⟨2024, 6, 1⟩, check_out := ⟨2024, 6, 3⟩ }] }
      "h1").2.1 ⟨{ id := "h1", name := "A", total_rooms := 1 }, by simp, rfl⟩
    simpa using this,
   (C7_hotel_delete
      { hotels := [{ id := "h2", name := "B", total_rooms := 2 }],
        customers := [], reservations := [] } "zz").1 (by decide)⟩

/-- C8: `HotelService.update` returns absence without writing when no
hotel matches; with a unique match it replaces exactly that record in
place (order preserved) and returns the replacement, whose fields follow
the partial-update policy: a provided, individually valid field overrides,
an omitted or invalid field silently keeps the previous value. -/
theorem C8_hotel_update (s : Store) (hid : String) (name : Option String)
    (tr : Option Int) :
    ((∀ x ∈ s.hotels, x.id ≠ hid) → HotelService.update s hid name tr = (none, s)) ∧
    (∀ pre h post, s.hotels = pre ++ h :: post → h.id = hid →
      (∀ x ∈ pre, x.id ≠ hid) → (∀ x ∈ post, x.id ≠ hid) →
      HotelService.update s hid name tr =
        (some (HotelService.updateHotel name tr h),
          { s with hotels := pre ++ HotelService.updateHotel name tr h :: post })) ∧
    (∀ h : Hotel,
      (HotelService.updateHotel name tr h).id = h.id ∧
      (∀ n, name = some n → pyStrip n ≠ "" →
        (HotelService.updateHotel name tr h).name = pyStrip n) ∧
      ((name = none ∨ ∃ n, name = some n ∧ pyStrip n = "") →
        (HotelService.updateHotel name tr h).name = h.name) ∧
      (∀ t, tr = some t → 0 < t →
        (HotelService.updateHotel name tr h).total_rooms = t) ∧
      ((tr = none ∨ ∃ t, tr = some t ∧ t ≤ 0) →
        (HotelService.updateHotel name tr h).total_rooms = h.total_rooms)) := by
  refine ⟨?_, ?_, ?_⟩
  · intro hno
    exact HotelService.update_no_match s hid name tr fun x hx => by simp [hno x hx]
  · intro pre h post hs_eq hm hpre hpost
    exact HotelService.update_unique_match s hid name tr pre h post hs_eq
      (fun x hx => by simp [hpre x hx]) (fun x hx => by simp [hpost x hx])
      (by simp [hm])
  · intro h
    refine ⟨rfl, ?_, ?_, ?_, ?_⟩
    · intro n hn hne
      simp [HotelService.updateHotel, hn, String.isEmpty_iff, hne]
    · rintro (hn | ⟨n, hn, hempty⟩)
      · simp [HotelService.updateHotel, hn]
      · simp [HotelService.updateHotel, hn, String.isEmpty_iff, hempty]
    · intro t ht hpos
      simp [HotelService.updateHotel, ht, hpos]
    · rintro (ht | ⟨t, ht, hle⟩)
      · simp [HotelService.updateHotel, ht]
      · simp [HotelService.updateHotel, ht, not_lt.mpr hle]

/-- C8 witness: updating `h2` with a paddable name and an invalid room
count strips the name, keeps the old room count, and rewrites only the
matching record. -/
theorem C8_witness :
    HotelService.update
      { hotels := [{ id := "h1", name := "A", total_rooms := 1 },
                   { id := "h2", name := "B", total_rooms := 2 }],
        customers := [], reservations := [] } "h2" (some " New ") (some 0) =
      (some { id := "h2", name := "New", total_rooms := 2 },
        { hotels := [{ id := "h1", name := "A", total_rooms := 1 },
                     { id := "h2", name := "New", total_rooms := 2 }],
          customers := [], reservations := [] }) := by
  have happ := (C8_hotel_update
      { hotels := [{ id := "h1", name := "A", total_rooms := 1 },
                   { id := "h2", name := "B", total_rooms := 2 }],
        customers := [], reservations := [] } "h2" (some " New ") (some 0)).2.1
    [{ id := "h1", name := "A", total_rooms := 1 }]
    { id := "h2", name := "B", total_rooms := 2 } [] rfl rfl
    (by decide) (by decide)
  rw [happ]
  rfl

/-- `updateHotel` keeps `total_rooms` positive when it was. -/
theorem HotelService.updateHotel_pos (name : Option String) (tr : Option Int)
    (h : Hotel) (hp : 0 < h.total_rooms) :
    0 < (HotelService.updateHotel name tr h).total_rooms := by
  unfold HotelService.updateHotel
  cases tr with
  | none => simpa using hp
  | some t =>
      by_cases htp : 0 < t
      · simp [htp]
      · simpa [htp] using hp

/-- The remembered replacement of the update loop is positive when the
start value and every scanned hotel are. -/
theorem HotelService.lastUpd_pos (hid : String) (name : Option String)
    (tr : Option Int) (hs : List Hotel) (u0 : Option Hotel)
    (h0 : ∀ u, u0 = some u → 0 < u.total_rooms)
    (hall : ∀ x ∈ hs, 0 < x.total_rooms) :
    ∀ u, HotelService.lastUpd hid name tr u0 hs = some u → 0 < u.total_rooms := by
  induction hs generalizing u0 with
  | nil => simpa [HotelService.lastUpd] using h0
  | cons x t ih =>
      intro u hu
      simp only [HotelService.lastUpd] at hu
      refine ih _ ?_ (fun y hy => hall y (by simp [hy])) u hu
      intro v hv
      by_cases hm : x.id = hid
      · simp only [hm, beq_self_eq_true, if_true, Option.some.injEq] at hv
        exact hv ▸ HotelService.updateHotel_pos name tr x (hall x (by simp))
      · simp only [if_neg (by simp [hm] : ¬ (x.id == hid) = true)] at hv
        exact h0 v hv

/-- C3 (amended): every Hotel returned by `Hotel.create` has
`total_rooms > 0`, and every Hotel observable through a `HotelService`
operation on a store whose hotels are all positive is again positive.
(`load_hotels` does **not** guarantee this for arbitrary file content —
see the counterexample.) -/
theorem C3_hotel_rooms_positive :
    (∀ newId name total_rooms h,
      Hotel.create newId name total_rooms = .ok h → 0 < h.total_rooms) ∧
    (∀ s : Store, (∀ h ∈ s.hotels, 0 < h.total_rooms) →
      (∀ newId name tr res s', HotelService.create s newId name tr = (res, s') →
        (∀ h, res = .ok h → 0 < h.total_rooms) ∧
        (∀ h ∈ s'.hotels, 0 < h.total_rooms)) ∧
      (∀ hid h, HotelService.get s hid = some h → 0 < h.total_rooms) ∧
      (∀ hid name tr u s', HotelService.update s hid name tr = (u, s') →
        (∀ h, u = some h → 0 < h.total_rooms) ∧
        (∀ h ∈ s'.hotels, 0 < h.total_rooms)) ∧
      (∀ hid b s', HotelService.deleteH s hid = (b, s') →
        ∀ h ∈ s'.hotels, 0 < h.total_rooms)) := by
  have hfact : ∀ (newId name : String) (total_rooms : Int) (h : Hotel),
      Hotel.create newId name total_rooms = .ok h → 0 < h.total_rooms := by
    intro newId name total_rooms h hcr
    unfold Hotel.create at hcr
    split_ifs at hcr with h1 h2
    simp only [Except.ok.injEq] at hcr
    rw [← hcr]
    exact not_le.mp h2
  refine ⟨hfact, ?_⟩
  intro s hall
  refine ⟨?_, ?_, ?_, ?_⟩
  · intro newId name tr res s' heq
    cases hc : Hotel.create newId name tr with
    | error e =>
        simp only [HotelService.create, hc] at heq
        cases heq
        exact ⟨fun h hres => by simp at hres, hall⟩
    | ok h =>
        simp only [HotelService.create, hc] at heq
        cases heq
        refine ⟨fun h' hres => ?_, fun h' hm => ?_⟩
        · simp only [Except.ok.injEq] at hres
          exact hres ▸ hfact _ _ _ _ hc
        · rcases List.mem_append.mp hm with hold | hnew
          · exact hall h' hold
          · rw [List.mem_singleton.mp hnew]
            exact hfact _ _ _ _ hc
  · intro hid h hget
    exact hall h (List.mem_of_find?_eq_some hget)
  · intro hid name tr u s' heq
    unfold HotelService.update HotelService.updateLoop at heq
    rw [HotelService.hotel_foldl_updateStep] at heq
    cases hl : HotelService.lastUpd hid name tr none s.hotels with
    | none =>
        rw [hl] at heq
        cases heq
        exact ⟨fun h hu => by simp at hu, hall⟩
    | some u' =>
        rw [hl] at heq
        cases heq
        refine ⟨fun h hu => ?_, fun h hm => ?_⟩
        · simp only [Option.some.injEq] at hu
          exact hu ▸ HotelService.lastUpd_pos hid name tr s.hotels none
            (fun v hv => by simp at hv) hall u' hl
        · simp only [List.nil_append] at hm
          rcases List.mem_map.mp hm with ⟨x, hx, hxe⟩
          by_cases hmx : x.id = hid
          · rw [← hxe]
            simp only [hmx, beq_self_eq_true, if_true]
            exact HotelService.updateHotel_pos name tr x (hall x hx)
          · rw [← hxe]
            simp only [if_neg (by simp [hmx] : ¬ (x.id == hid) = true)]
            exact hall x hx
  · intro hid b s' heq
    unfold HotelService.deleteH at heq
    dsimp only at heq
    split_ifs at heq
    · cases heq
      exact hall
    · cases heq
      intro h hm
      exact hall h (List.mem_of_mem_filter hm)

/-- `countActive` distributes over list append. -/
theorem countActive_append (l1 l2 : List Reservation) (hid : String) (t : Date) :
    countActive (l1 ++ l2) hid t = countActive l1 hid t + countActive l2 hid t := by
  simp [countActive, List.filter_append]

/-- `countActive` can only shrink under a filter. -/
theorem countActive_filter_le (l : List Reservation) (p : Reservation → Bool)
    (hid : String) (t : Date) :
    countActive (l.filter p) hid t ≤ countActive l hid t := by
  unfold countActive
  rw [← List.countP_eq_length_filter, ← List.countP_eq_length_filter]
  exact (List.filter_sublist l).countP_le _

/-- Every reservation active at an instant inside the candidate's stay
overlaps the candidate, so the active count is bounded by the overlap
count the service computes. -/
theorem countActive_le_overlapping (rs : List Reservation) (hid : String)
    (nr : Reservation) (t : Date) (h1 : nr.check_in ≤ t) (h2 : t < nr.check_out) :
    countActive rs hid t ≤
      (rs.filter (fun r => r.hotel_id == hid && r.overlaps nr)).length := by
  unfold countActive
  rw [← List.countP_eq_length_filter, ← List.countP_eq_length_filter]
  refine List.countP_mono_left fun r _ hp => ?_
  simp only [Bool.and_eq_true, decide_eq_true_eq] at hp
  obtain ⟨⟨hidr, hle⟩, hlt⟩ := hp
  simp only [Bool.and_eq_true, hidr, true_and, Reservation.overlaps,
    decide_eq_true_eq]
  exact lt_of_le_of_lt (max_le hle h1) (lt_min hlt h2)

/-- Under a non-shrinking update, the replacement record has at least the
old room count. -/
theorem HotelService.updateHotel_no_shrink (s : Store) (hid : String)
    (name : Option String) (tr : Option Int)
    (hns : opShrinks s (.hotelUpdate hid name tr) = false)
    (h : Hotel) (hm : h ∈ s.hotels) (hiq : h.id = hid) :
    h.total_rooms ≤ (HotelService.updateHotel name tr h).total_rooms := by
  cases tr with
  | none => simp [HotelService.updateHotel]
  | some t =>
      by_cases htp : 0 < t
      · have hdt : decide (0 < t) = true := by simp [htp]
        have hany : s.hotels.any
            (fun x => x.id == hid && decide (t < x.total_rooms)) = false := by
          simp only [opShrinks, hdt, Bool.true_and] at hns
          exact hns
        have hx := List.any_eq_false.mp hany h hm
        simp only [Bool.and_eq_true, beq_iff_eq, decide_eq_true_eq, not_and] at hx
        have hle : t < h.total_rooms → False := hx hiq
        simp only [HotelService.updateHotel, htp, if_true]
        exact not_lt.mp hle
      · simp [HotelService.updateHotel, htp]

/-- The replacement list of a hotel update carries the same id list. -/
theorem HotelService.map_id_update (hid : String) (name : Option String)
    (tr : Option Int) (hs : List Hotel) :
    (hs.map (fun h => if h.id == hid then HotelService.updateHotel name tr h else h)).map
        Hotel.id = hs.map Hotel.id := by
  rw [List.map_map]
  refine List.map_congr_left fun x _ => ?_
  by_cases hc : x.id = hid <;> simp [hc, Function.comp, HotelService.updateHotel_id]

/-- The inductive invariant behind the core capacity bound: hotel ids are
pairwise distinct (fresh uuids), every stored hotel has a positive room
count, referential integrity holds, and the capacity bound holds. -/
def CapInv (s : Store) : Prop :=
  (s.hotels.map Hotel.id).Nodup ∧ (∀ h ∈ s.hotels, 0 < h.total_rooms) ∧
    RefInt s ∧ CapacityOK s

/-- Referential integrity is preserved by every completed Service
operation. -/
theorem refint_applyOp (s : Store) (op : Op) (h : RefInt s) :
    RefInt (applyOp s op) := by
  cases op with
  | hotelCreate newId name tr =>
      show RefInt (HotelService.create s newId name tr).2
      rcases hotelService_create_store s newId name tr with heq | ⟨hNew, _, heq⟩ <;>
        rw [heq]
      · exact h
      · intro r hr
        obtain ⟨⟨h0, h0m, h0e⟩, hcs⟩ := h r hr
        exact ⟨⟨h0, List.mem_append_left _ h0m, h0e⟩, hcs⟩
  | hotelGet hid => exact h
  | hotelUpdate hid name tr =>
      show RefInt (HotelService.update s hid name tr).2
      obtain ⟨hhot, hcust, hres⟩ := hotelService_update_store s hid name tr
      intro r hr
      rw [hres] at hr
      obtain ⟨⟨h0, h0m, h0e⟩, ⟨c0, c0m, c0e⟩⟩ := h r hr
      rw [hcust]
      refine ⟨?_, ⟨c0, c0m, c0e⟩⟩
      rcases hhot with hh1 | hh1 <;> rw [hh1]
      · exact ⟨h0, h0m, h0e⟩
      · by_cases hcase : h0.id = hid
        · have hmem := List.mem_map_of_mem
            (fun x => if x.id == hid then HotelService.updateHotel name tr x else x) h0m
          simp only [hcase, beq_self_eq_true, if_true] at hmem
          exact ⟨HotelService.updateHotel name tr h0, hmem,
            by rw [HotelService.updateHotel_id, h0e]⟩
        · refine ⟨h0, ?_, h0e⟩
          have : (fun x => if x.id == hid then HotelService.updateHotel name tr x else x) h0
              = h0 := by simp [hcase]
          exact this ▸ List.mem_map_of_mem _ h0m
  | hotelDelete hid =>
      show RefInt (HotelService.deleteH s hid).2
      rcases hotelService_delete_store s hid with heq | heq <;> rw [heq]
      · exact h
      · intro r hr
        obtain ⟨hrm, hrk⟩ := List.mem_filter.mp hr
        obtain ⟨⟨h0, h0m, h0e⟩, hcs⟩ := h r hrm
        refine ⟨⟨h0, List.mem_filter.mpr ⟨h0m, ?_⟩, h0e⟩, hcs⟩
        rw [h0e]
        exact hrk
  | customerCreate newId name email =>
      show RefInt (CustomerService.create s newId name email).2
      obtain ⟨hhot, hres, hcust⟩ := customerService_create_store s newId name email
      intro r hr
      rw [hres] at hr
      obtain ⟨hhs, ⟨c0, c0m, c0e⟩⟩ := h r hr
      rw [hhot]
      refine ⟨hhs, ?_⟩
      rcases hcust with hc1 | ⟨cNew, hc1⟩ <;> rw [hc1]
      · exact ⟨c0, c0m, c0e⟩
      · exact ⟨c0, List.mem_append_left _ c0m, c0e⟩
  | customerGet cid => exact h
  | customerUpdate cid name email =>
      show RefInt (CustomerService.update s cid name email).2
      obtain ⟨hhot, hres, hcust⟩ := customerService_update_store s cid name email
      intro r hr
      rw [hres] at hr
      obtain ⟨hhs, ⟨c0, c0m, c0e⟩⟩ := h r hr
      rw [hhot]
      refine ⟨hhs, ?_⟩
      rcases hcust with hc1 | hc1 <;> rw [hc1]
      · exact ⟨c0, c0m, c0e⟩
      · by_cases hcase : c0.id = cid
        · have hmem := List.mem_map_of_mem
            (fun x => if x.id == cid then CustomerService.updateCustomer name email x else x) c0m
          simp only [hcase, beq_self_eq_true, if_true] at hmem
          exact ⟨CustomerService.updateCustomer name email c0, hmem,
            by rw [CustomerService.updateCustomer_id, c0e]⟩
        · refine ⟨c0, ?_, c0e⟩
          have : (fun x => if x.id == cid then CustomerService.updateCustomer name email x else x) c0
              = c0 := by simp [hcase]
          exact this ▸ List.mem_map_of_mem _ c0m
  | customerDelete cid =>
      show RefInt (CustomerService.deleteC s cid).2
      rcases customerService_delete_store s cid with heq | heq <;> rw [heq]
      · exact h
      · intro r hr
        obtain ⟨hrm, hrk⟩ := List.mem_filter.mp hr
        obtain ⟨hhs, ⟨c0, c0m, c0e⟩⟩ := h r hrm
        refine ⟨hhs, ⟨c0, List.mem_filter.mpr ⟨c0m, ?_⟩, c0e⟩⟩
        rw [c0e]
        exact hrk
  | resCreate newId cid hid ci co =>
      show RefInt (ReservationService.create s newId cid hid ci co).2
      rcases reservationService_create_store s newId cid hid ci co with
        heq | ⟨hotel, hh, hcf, _, heq⟩ <;> rw [heq]
      · exact h
      · intro r hr
        rcases List.mem_append.mp hr with hold | hnew
        · obtain ⟨⟨h0, h0m, h0e⟩, ⟨c0, c0m, c0e⟩⟩ := h r hold
          exact ⟨⟨h0, h0m, h0e⟩, ⟨c0, c0m, c0e⟩⟩
        · obtain ⟨c0, hc0⟩ := Option.isSome_iff_exists.mp hcf
          rw [List.mem_singleton.mp hnew]
          refine ⟨⟨hotel, List.mem_of_find?_eq_some hh, ?_⟩,
            ⟨c0, List.mem_of_find?_eq_some hc0, ?_⟩⟩
          · simpa using List.find?_some hh
          · simpa using List.find?_some hc0
  | resGet rid => exact h
  | resCancel rid =>
      show RefInt (ReservationService.cancel s rid).2
      rcases reservationService_cancel_store s rid with heq | heq <;> rw [heq]
      · exact h
      · intro r hr
        exact h r (List.mem_filter.mp hr).1

/-- Referential integrity is preserved by any operation sequence. -/
theorem refint_execOps (ops : List Op) :
    ∀ s : Store, RefInt s → RefInt (execOps s ops) := by
  induction ops with
  | nil => exact fun s h => h
  | cons op rest ih => exact fun s h => ih _ (refint_applyOp s op h)

/-- The capacity invariant is preserved by every completed Service
operation that draws fresh ids and does not shrink a hotel. -/
theorem capInv_applyOp (s : Store) (op : Op) (hinv : CapInv s)
    (hf : opFresh s op = true) (hns : opShrinks s op = false) :
    CapInv (applyOp s op) := by
  obtain ⟨hnd, hpos, href, hcap⟩ := hinv
  have href' := refint_applyOp s op href
  cases op with
  | hotelCreate newId name tr =>
      have href2 : RefInt (HotelService.create s newId name tr).2 := href'
      show CapInv (HotelService.create s newId name tr).2
      rcases hotelService_create_store s newId name tr with heq | ⟨hNew, hok, heq⟩ <;>
        rw [heq] at href2 ⊢
      · exact ⟨hnd, hpos, href2, hcap⟩
      · obtain ⟨hid_eq, _, hrooms_pos⟩ := hotel_create_ok_spec _ _ _ _ hok
        simp only [opFresh, List.all_eq_true, bne_iff_ne, ne_eq] at hf
        refine ⟨?_, ?_, href2, ?_⟩
        · show ((s.hotels ++ [hNew]).map Hotel.id).Nodup
          rw [List.map_append, List.nodup_append]
          refine ⟨hnd, by simp, ?_⟩
          intro a ha hb
          simp only [List.map_cons, List.map_nil, List.mem_singleton] at hb
          obtain ⟨x, hx, hxe⟩ := List.mem_map.mp ha
          exact hf x hx (by rw [hxe, hb, hid_eq])
        · intro h hm
          rcases List.mem_append.mp hm with hold | hnew
          · exact hpos h hold
          · rw [List.mem_singleton.mp hnew]
            exact hrooms_pos
        · intro H hm t
          rcases List.mem_append.mp hm with hold | hnew
          · exact hcap H hold t
          · rw [List.mem_singleton.mp hnew]
            have hnil : s.reservations.filter (fun r =>
                r.hotel_id == hNew.id && decide (r.check_in ≤ t) &&
                decide (t < r.check_out)) = [] := by
              rw [List.filter_eq_nil_iff]
              intro r hr
              obtain ⟨⟨h0, h0m, h0e⟩, _⟩ := href r hr
              have hrne : r.hotel_id ≠ newId := h0e ▸ hf h0 h0m
              simp [hid_eq, hrne]
            show (countActive s.reservations hNew.id t : Int) ≤ hNew.total_rooms
            unfold countActive
            rw [hnil]
            simpa using le_of_lt hrooms_pos
  | hotelGet hid => exact ⟨hnd, hpos, href, hcap⟩
  | hotelUpdate hid name tr =>
      have href2 : RefInt (HotelService.update s hid name tr).2 := href'
      show CapInv (HotelService.update s hid name tr).2
      obtain ⟨hhot, hcust, hres⟩ := hotelService_update_store s hid name tr
      refine ⟨?_, ?_, href2, ?_⟩
      · rcases hhot with hh1 | hh1 <;> rw [hh1]
        · exact hnd
        · rw [HotelService.map_id_update]
          exact hnd
      · intro h hm
        rcases hhot with hh1 | hh1 <;> rw [hh1] at hm
        · exact hpos h hm
        · obtain ⟨x, hx, hxe⟩ := List.mem_map.mp hm
          by_cases hc : x.id = hid
          · rw [← hxe]
            simp only [hc, beq_self_eq_true, if_true]
            exact HotelService.updateHotel_pos name tr x (hpos x hx)
          · rw [← hxe]
            simp only [if_neg (show ¬((x.id == hid) = true) by simp [hc])]
            exact hpos x hx
      · intro H hm t
        show (countActive (HotelService.update s hid name tr).2.reservations H.id t : Int)
          ≤ H.total_rooms
        rw [hres]
        rcases hhot with hh1 | hh1 <;> rw [hh1] at hm
        · exact hcap H hm t
        · obtain ⟨x, hx, hxe⟩ := List.mem_map.mp hm
          by_cases hc : x.id = hid
          · have hxe' : H = HotelService.updateHotel name tr x := by
              rw [← hxe]
              simp [hc]
            have hxid : H.id = x.id := by
              rw [hxe', HotelService.updateHotel_id]
            rw [hxid, hxe']
            calc (countActive s.reservations x.id t : Int)
                ≤ x.total_rooms := hcap x hx t
              _ ≤ _ := HotelService.updateHotel_no_shrink s hid name tr hns x hx hc
          · have hxe' : H = x := by
              rw [← hxe]
              simp [hc]
            rw [hxe']
            exact hcap x hx t
  | hotelDelete hid =>
      have href2 : RefInt (HotelService.deleteH s hid).2 := href'
      show CapInv (HotelService.deleteH s hid).2
      rcases hotelService_delete_store s hid with heq | heq <;> rw [heq] at href2 ⊢
      · exact ⟨hnd, hpos, href2, hcap⟩
      · refine ⟨?_, ?_, href2, ?_⟩
        · exact List.Nodup.sublist
            (List.Sublist.map Hotel.id (List.filter_sublist s.hotels)) hnd
        · intro h hm
          exact hpos h (List.mem_of_mem_filter hm)
        · intro H hm t
          refine le_trans (Int.ofNat_le.mpr (countActive_filter_le _ _ _ _)) ?_
          exact hcap H (List.mem_of_mem_filter hm) t
  | customerCreate newId name email =>
      have href2 : RefInt (CustomerService.create s newId name email).2 := href'
      show CapInv (CustomerService.create s newId name email).2
      obtain ⟨hhot, hres, _⟩ := customerService_create_store s newId name email
      refine ⟨by rw [hhot]; exact hnd, by rw [hhot]; exact hpos, href2, ?_⟩
      intro H hm t
      show (countActive (CustomerService.create s newId name email).2.reservations H.id t : Int)
        ≤ H.total_rooms
      rw [hres]
      rw [hhot] at hm
      exact hcap H hm t
  | customerGet cid => exact ⟨hnd, hpos, href, hcap⟩
  | customerUpdate cid name email =>
      have href2 : RefInt (CustomerService.update s cid name email).2 := href'
      show CapInv (CustomerService.update s cid name email).2
      obtain ⟨hhot, hres, _⟩ := customerService_update_store s cid name email
      refine ⟨by rw [hhot]; exact hnd, by rw [hhot]; exact hpos, href2, ?_⟩
      intro H hm t
      show (countActive (CustomerService.update s cid name email).2.reservations H.id t : Int)
        ≤ H.total_rooms
      rw [hres]
      rw [hhot] at hm
      exact hcap H hm t
  | customerDelete cid =>
      have href2 : RefInt (CustomerService.deleteC s cid).2 := href'
      show CapInv (CustomerService.deleteC s cid).2
      rcases customerService_delete_store s cid with heq | heq <;> rw [heq] at href2 ⊢
      · exact ⟨hnd, hpos, href2, hcap⟩
      · refine ⟨hnd, hpos, href2, ?_⟩
        intro H hm t
        refine le_trans (Int.ofNat_le.mpr (countActive_filter_le _ _ _ _)) ?_
        exact hcap H hm t
  | resCreate newId cid hid ci co =>
      have href2 : RefInt (ReservationService.create s newId cid hid ci co).2 := href'
      show CapInv (ReservationService.create s newId cid hid ci co).2
      rcases reservationService_create_store s newId cid hid ci co with
        heq | ⟨hotel, hh, hcf, hcap_lt, heq⟩ <;> rw [heq] at href2 ⊢
      · exact ⟨hnd, hpos, href2, hcap⟩
      · refine ⟨hnd, hpos, href2, ?_⟩
        intro H hm t
        show (countActive (s.reservations ++
          [{ id := newId, customer_id := cid, hotel_id := hid,
             check_in := ci, check_out := co }]) H.id t : Int) ≤ H.total_rooms
        rw [countActive_append]
        have hhotm := List.mem_of_find?_eq_some hh
        have hhotid : hotel.id = hid := by simpa using List.find?_some hh
        by_cases hHid : H.id = hid
        · have hHeq : H = hotel :=
            List.inj_on_of_nodup_map hnd hm hhotm (by rw [hHid, hhotid])
          subst hHeq
          rw [hhotid]
          by_cases hc1 : ci ≤ t
          · by_cases hc2 : t < co
            · have hone : countActive
                  [({ id := newId, customer_id := cid, hotel_id := hid,
                      check_in := ci, check_out := co } : Reservation)] hid t = 1 := by
                simp [countActive, hc1, hc2]
              rw [hone]
              have hmono := countActive_le_overlapping s.reservations hid
                { id := newId, customer_id := cid, hotel_id := hid,
                  check_in := ci, check_out := co } t hc1 hc2
              push_cast
              omega
            · have hzero : countActive
                  [({ id := newId, customer_id := cid, hotel_id := hid,
                      check_in := ci, check_out := co } : Reservation)] hid t = 0 := by
                simp [countActive, hc2]
              rw [hzero]
              simpa [hhotid] using hcap H hhotm t
          · have hzero : countActive
                [({ id := newId, customer_id := cid, hotel_id := hid,
                    check_in := ci, check_out := co } : Reservation)] hid t = 0 := by
              simp [countActive, hc1]
            rw [hzero]
            simpa [hhotid] using hcap H hhotm t
        · have hne : hid ≠ H.id := fun he => hHid he.symm
          have hzero : countActive
              [({ id := newId, customer_id := cid, hotel_id := hid,
                  check_in := ci, check_out := co } : Reservation)] H.id t = 0 := by
            simp [countActive, hne]
          rw [hzero]
          simpa using hcap H hm t
  | resGet rid => exact ⟨hnd, hpos, href, hcap⟩
  | resCancel rid =>
      have href2 : RefInt (ReservationService.cancel s rid).2 := href'
      show CapInv (ReservationService.cancel s rid).2
      rcases reservationService_cancel_store s rid with heq | heq <;> rw [heq] at href2 ⊢
      · exact ⟨hnd, hpos, href2, hcap⟩
      · refine ⟨hnd, hpos, href2, ?_⟩
        intro H hm t
        refine le_trans (Int.ofNat_le.mpr (countActive_filter_le _ _ _ _)) ?_
        exact hcap H hm t

/-- The capacity invariant is preserved along any fresh, non-shrinking
trace. -/
theorem capInv_execOps (ops : List Op) :
    ∀ s : Store, CapInv s → Fresh s ops = true → NoShrink s ops = true →
      CapInv (execOps s ops) := by
  induction ops with
  | nil => exact fun s h _ _ => h
  | cons op rest ih =>
      intro s h hf hns
      simp only [Fresh, Bool.and_eq_true] at hf
      simp only [NoShrink, Bool.and_eq_true, Bool.not_eq_true'] at hns
      exact ih _ (capInv_applyOp s op h hf.1 hns.1) hf.2 hns.2

/-- C5: starting from empty storage, after any sequence of Service
operations every stored reservation references a stored hotel and a
stored customer; reservation creation rejects unknown ids with the
not-found errors writing nothing, and hotel/customer deletion cascades
into the reservations referencing the deleted id. -/
theorem C5_referential_integrity :
    (∀ ops : List Op, RefInt (execOps Store.empty ops)) ∧
    (∀ (s : Store) (newId cid hid : String) (ci co : Date),
      (∀ h ∈ s.hotels, h.id ≠ hid) →
      ReservationService.create s newId cid hid ci co =
        (.error (.valueError "Hotel no existe"), s)) ∧
    (∀ (s : Store) (newId cid hid : String) (ci co : Date) (hotel : Hotel),
      s.hotels.find? (fun h => h.id == hid) = some hotel →
      (∀ c ∈ s.customers, c.id ≠ cid) →
      ReservationService.create s newId cid hid ci co =
        (.error (.valueError "Cliente no existe"), s)) ∧
    (∀ (s : Store) (hid : String), (∃ h ∈ s.hotels, h.id = hid) →
      (HotelService.deleteH s hid).2.reservations =
        s.reservations.filter (fun r => !(r.hotel_id == hid))) ∧
    (∀ (s : Store) (cid : String), (∃ c ∈ s.customers, c.id = cid) →
      (CustomerService.deleteC s cid).2.reservations =
        s.reservations.filter (fun r => !(r.customer_id == cid))) := by
  refine ⟨?_, ?_, ?_, ?_, ?_⟩
  · intro ops
    exact refint_execOps ops Store.empty fun r hr => absurd hr (List.not_mem_nil r)
  · intro s newId cid hid ci co hno
    have hfind : s.hotels.find? (fun h => h.id == hid) = none :=
      List.find?_eq_none.mpr fun x hx => by simp [hno x hx]
    unfold ReservationService.create
    rw [hfind]
  · intro s newId cid hid ci co hotel hh hno
    have hfind : s.customers.find? (fun c => c.id == cid) = none :=
      List.find?_eq_none.mpr fun x hx => by simp [hno x hx]
    unfold ReservationService.create
    rw [hh, hfind]
  · rintro s hid ⟨h0, h0m, h0e⟩
    have hne : (s.hotels.filter (fun x => !(x.id == hid))).length ≠ s.hotels.length := by
      intro hlen
      have hall := List.filter_length_eq_length.mp hlen h0 h0m
      simp [h0e] at hall
    unfold HotelService.deleteH
    dsimp only
    rw [if_neg hne]
  · rintro s cid ⟨c0, c0m, c0e⟩
    have hne : (s.customers.filter (fun x => !(x.id == cid))).length ≠ s.customers.length := by
      intro hlen
      have hall := List.filter_length_eq_length.mp hlen c0 c0m
      simp [c0e] at hall
    unfold CustomerService.deleteC
    dsimp only
    rw [if_neg hne]

/-- C5 witness: after a concrete six-operation trace — a hotel, two
customers, two reservations, then deleting one customer — integrity holds
in the resulting store, and the cascade removed the deleted customer's
reservation. -/
theorem C5_witness :
    (RefInt (execOps Store.empty
      [.hotelCreate "h1" "H" 2, .customerCreate "c1" "A" "a@x.com",
       .customerCreate "c2" "B" "b@x.com",
       .resCreate "r1" "c1" "h1" ⟨2024, 6, 1⟩ ⟨2024, 6, 3⟩,
       .resCreate "r2" "c2" "h1" ⟨2024, 6, 1⟩ ⟨2024, 6, 3⟩,
       .customerDelete "c1"])) ∧
    ReservationService.create
      { hotels := [], customers := [], reservations := [] }
      "r1" "c1" "zz" ⟨2024, 6, 1⟩ ⟨2024, 6, 3⟩ =
      (.error (.valueError "Hotel no existe"),
        { hotels := [], customers := [], reservations := [] }) :=
  ⟨C5_referential_integrity.1
      [.hotelCreate "h1" "H" 2, .customerCreate "c1" "A" "a@x.com",
       .customerCreate "c2" "B" "b@x.com",
       .resCreate "r1" "c1" "h1" ⟨2024, 6, 1⟩ ⟨2024, 6, 3⟩,
       .resCreate "r2" "c2" "h1" ⟨2024, 6, 1⟩ ⟨2024, 6, 3⟩,
       .customerDelete "c1"],
   C5_referential_integrity.2.1
      { hotels := [], customers := [], reservations := [] }
      "r1" "c1" "zz" ⟨2024, 6, 1⟩ ⟨2024, 6, 3⟩ (by decide)⟩

/-- C1 counterexample: the claim quantifies over *all* operation
sequences, but a `HotelService.update` that lowers `total_rooms` (legal
under the partial-update policy, which only requires the new count to be
positive) breaks the capacity bound: a 2-room hotel with two overlapping
reservations is updated to 1 room, after which 2 active reservations
exceed `total_rooms = 1` on 2024-06-01.  The trace draws only fresh ids. -/
theorem C1_counterexample :
    Fresh Store.empty
      [.hotelCreate "h1" "H" 2, .customerCreate "c1" "C" "c@x.com",
       .resCreate "r1" "c1" "h1" ⟨2024, 6, 1⟩ ⟨2024, 6, 3⟩,
       .resCreate "r2" "c1" "h1" ⟨2024, 6, 1⟩ ⟨2024, 6, 3⟩,
       .hotelUpdate "h1" none (some 1)] = true ∧
    ¬ CapacityOK (execOps Store.empty
      [.hotelCreate "h1" "H" 2, .customerCreate "c1" "C" "c@x.com",
       .resCreate "r1" "c1" "h1" ⟨2024, 6, 1⟩ ⟨2024, 6, 3⟩,
       .resCreate "r2" "c1" "h1" ⟨2024, 6, 1⟩ ⟨2024, 6, 3⟩,
       .hotelUpdate "h1" none (some 1)]) := by
  refine ⟨by decide, fun hcap => ?_⟩
  have hmem : ({ id := "h1", name := "H", total_rooms := 1 } : Hotel) ∈
      (execOps Store.empty
        [.hotelCreate "h1" "H" 2, .customerCreate "c1" "C" "c@x.com",
         .resCreate "r1" "c1" "h1" ⟨2024, 6, 1⟩ ⟨2024, 6, 3⟩,
         .resCreate "r2" "c1" "h1" ⟨2024, 6, 1⟩ ⟨2024, 6, 3⟩,
         .hotelUpdate "h1" none (some 1)]).hotels := by decide
  exact absurd (hcap _ hmem ⟨2024, 6, 1⟩) (by decide)

/-- C1 (amended): starting from empty storage, after any finite sequence
of Service operations in which every create draws a fresh id (the uuid
guarantee) and **no hotel update lowers a room count below its previous
value**, the core capacity bound holds: for every stored hotel `H` and
every calendar date `t`, the stored reservations for `H` whose half-open
stay interval contains `t` do not outnumber `H.total_rooms`. -/
theorem C1_capacity_invariant (ops : List Op)
    (hf : Fresh Store.empty ops = true)
    (hns : NoShrink Store.empty ops = true) :
    CapacityOK (execOps Store.empty ops) := by
  have h0 : CapInv Store.empty :=
    ⟨by simp [Store.empty], by simp [Store.empty],
     fun r hr => absurd hr (List.not_mem_nil r),
     fun h hm => absurd hm (List.not_mem_nil h)⟩
  exact (capInv_execOps ops Store.empty h0 hf hns).2.2.2

/-- C1 witness: the capacity bound after a concrete fresh, non-shrinking
trace filling a 2-room hotel. -/
theorem C1_witness :
    CapacityOK (execOps Store.empty
      [.hotelCreate "h1" "H" 2, .customerCreate "c1" "C" "c@x.com",
       .resCreate "r1" "c1" "h1" ⟨2024, 6, 1⟩ ⟨2024, 6, 3⟩,
       .resCreate "r2" "c1" "h1" ⟨2024, 6, 1⟩ ⟨2024, 6, 3⟩]) :=
  C1_capacity_invariant
    [.hotelCreate "h1" "H" 2, .customerCreate "c1" "C" "c@x.com",
     .resCreate "r1" "c1" "h1" ⟨2024, 6, 1⟩ ⟨2024, 6, 3⟩,
     .resCreate "r2" "c1" "h1" ⟨2024, 6, 1⟩ ⟨2024, 6, 3⟩]
    (by decide) (by decide)

/-- C3 witness: a factory-built hotel and the store after a service create
are positive. -/
theorem C3_witness :
    (0 : Int) < ({ id := "h1", name := "A", total_rooms := 2 } : Hotel).total_rooms ∧
    ∀ h ∈ (HotelService.create
        { hotels := [], customers := [], reservations := [] } "h1" "A" 2).2.hotels,
      0 < h.total_rooms :=
  ⟨C3_hotel_rooms_positive.1 "h1" "A" 2
      { id := "h1", name := "A", total_rooms := 2 } (by decide),
   (((C3_hotel_rooms_positive.2
      { hotels := [], customers := [], reservations := [] } (by simp)).1
      "h1" "A" 2
      (HotelService.create { hotels := [], customers := [], reservations := [] } "h1" "A" 2).1
      (HotelService.create { hotels := [], customers := [], reservations := [] } "h1" "A" 2).2
      rfl).2)⟩

end ResSys
